import Mathlib

/-!
Verification development for the fence calculation engine
(`webshop/webshop/webshop/fence_calculation_engine.py`).

Numeric model: Python floats are embedded as exact numbers — rational
coordinates, real-valued Euclidean lengths (`Real.sqrt`), exact rational
constants — i.e. the idealized full-precision semantics the code computes
up to floating rounding.  Comparisons of a Euclidean distance against a
nonnegative threshold `t` are embedded as comparisons of the squared
distance against `t^2` (equivalent, since `Real.sqrt` is monotone; the
bridge lemmas `Point.dist_le_iff` / `Point.dist_lt_iff` below prove the
two forms equal), which keeps every branch of the embedded functions
decidable over `ℚ`.
-/

set_option maxHeartbeats 1000000

/-- 2D point with rational (exact-float) coordinates; `dataclass Point`. -/
structure Point where
  x : ℚ
  y : ℚ
deriving DecidableEq, Repr

/-- Squared Euclidean distance, the radicand of `Point.distance_to`. -/
def Point.dist2 (p q : Point) : ℚ :=
  (p.x - q.x) ^ 2 + (p.y - q.y) ^ 2

/-- Euclidean distance: `Point.distance_to` (`math.sqrt((x1-x2)**2 + (y1-y2)**2)`). -/
noncomputable def Point.dist (p q : Point) : ℝ :=
  Real.sqrt ((Point.dist2 p q : ℚ) : ℝ)

lemma Point.dist2_nonneg (p q : Point) : 0 ≤ Point.dist2 p q :=
  add_nonneg (sq_nonneg _) (sq_nonneg _)

lemma Point.dist2_comm (p q : Point) : Point.dist2 p q = Point.dist2 q p := by
  unfold Point.dist2; ring

/-- Bridge: `distance_to(p, q) <= t` (the source's comparison) is equivalent to
the squared comparison the embedding branches on. -/
lemma Point.dist_le_iff (p q : Point) (t : ℚ) (ht : 0 ≤ t) :
    Point.dist p q ≤ (t : ℝ) ↔ Point.dist2 p q ≤ t ^ 2 := by
  rw [Point.dist, Real.sqrt_le_left (by exact_mod_cast ht)]
  constructor
  · intro h; exact_mod_cast h
  · intro h; exact_mod_cast h

/-- Bridge: `distance_to(p, q) < t` is equivalent to the squared comparison. -/
lemma Point.dist_lt_iff (p q : Point) (t : ℚ) (ht : 0 < t) :
    Point.dist p q < (t : ℝ) ↔ Point.dist2 p q < t ^ 2 := by
  rw [Point.dist, Real.sqrt_lt' (by exact_mod_cast ht)]
  constructor
  · intro h; exact_mod_cast h
  · intro h; exact_mod_cast h

lemma Point.dist_nonneg (p q : Point) : 0 ≤ Point.dist p q :=
  Real.sqrt_nonneg _

/-- Evaluation helper: distance between two points on a horizontal line. -/
lemma Point.dist_horiz (a b c : ℚ) :
    Point.dist ⟨a, c⟩ ⟨b, c⟩ = |(a : ℝ) - (b : ℝ)| := by
  rw [Point.dist, Point.dist2]
  have h : (((a - b) ^ 2 + (c - c) ^ 2 : ℚ) : ℝ) = ((a : ℝ) - (b : ℝ)) ^ 2 := by
    push_cast; ring
  rw [h, Real.sqrt_sq_eq_abs]

lemma Point.dist_self (p : Point) : Point.dist p p = 0 := by
  have h : Point.dist2 p p = 0 := by unfold Point.dist2; ring
  rw [Point.dist, h]
  simp

/-- The closed `FenceType` enum. -/
inductive FenceType where
  | vinyl_privacy
  | vinyl_semi_privacy
  | vinyl_picket
  | aluminum_privacy
  | aluminum_picket
  | wood_privacy
  | wood_picket
  | chain_link
deriving DecidableEq, Repr

/-- The `FenceType(value)` constructor: `some` member whose value matches the
string, `none` when the string matches no member (`ValueError` in Python). -/
def FenceType.ofString (s : String) : Option FenceType :=
  if s = "vinyl-privacy" then some .vinyl_privacy
  else if s = "vinyl-semi-privacy" then some .vinyl_semi_privacy
  else if s = "vinyl-picket" then some .vinyl_picket
  else if s = "aluminum-privacy" then some .aluminum_privacy
  else if s = "aluminum-picket" then some .aluminum_picket
  else if s = "wood-privacy" then some .wood_privacy
  else if s = "wood-picket" then some .wood_picket
  else if s = "chain-link" then some .chain_link
  else none

/-- `dataclass MaterialSpecs` with its defaults. -/
structure MaterialSpecs where
  panel_width : ℚ := 8
  post_spacing : ℚ := 8
  post_depth : ℚ := 2
  panel_height : ℚ := 6
  hardware_per_panel : ℤ := 4
  concrete_bags_per_post : ℚ := 3 / 2
  panel_waste_factor : ℚ := 1 / 20
  post_waste_factor : ℚ := 1 / 50
  hardware_waste_factor : ℚ := 1 / 10
deriving DecidableEq, Repr

/-- `FenceCalculationEngine._load_material_specs`: custom specs for five types,
defaults for the remaining three. -/
def materialSpecs : FenceType → MaterialSpecs
  | .vinyl_privacy =>
      { panel_width := 8, panel_height := 6, hardware_per_panel := 4,
        concrete_bags_per_post := 3 / 2 }
  | .vinyl_picket =>
      { panel_width := 8, panel_height := 4, hardware_per_panel := 3,
        concrete_bags_per_post := 1 }
  | .aluminum_privacy =>
      { panel_width := 6, panel_height := 6, hardware_per_panel := 6,
        concrete_bags_per_post := 2 }
  | .wood_privacy =>
      { panel_width := 8, panel_height := 6, hardware_per_panel := 8,
        concrete_bags_per_post := 3 / 2 }
  | .chain_link =>
      { panel_width := 10, panel_height := 4, hardware_per_panel := 2,
        concrete_bags_per_post := 3 / 2 }
  | _ => {}

/-- One row of the default pricing table. -/
structure PriceEntry where
  base : ℚ
  per_foot : ℚ
  labor_per_foot : ℚ
deriving DecidableEq, Repr

/-- `FenceCalculationEngine._load_pricing_data` default table (the database
lookup is an external collaborator; the engine falls back to these values). -/
def pricingData (s : String) : Option PriceEntry :=
  if s = "vinyl-privacy" then some ⟨25, 18, 8⟩
  else if s = "vinyl-semi-privacy" then some ⟨22, 16, 7⟩
  else if s = "vinyl-picket" then some ⟨20, 14, 6⟩
  else if s = "aluminum-privacy" then some ⟨35, 25, 10⟩
  else if s = "aluminum-picket" then some ⟨30, 22, 9⟩
  else if s = "wood-privacy" then some ⟨18, 12, 6⟩
  else if s = "wood-picket" then some ⟨15, 10, 5⟩
  else if s = "chain-link" then some ⟨12, 8, 4⟩
  else none

/-- Round-half-to-even on `ℚ` (Python `round` tie behavior). -/
def halfEvenRoundQ (q : ℚ) : ℤ :=
  let f := ⌊q⌋
  if q - f < 1 / 2 then f
  else if 1 / 2 < q - f then f + 1
  else if f % 2 = 0 then f else f + 1

/-- Round-half-to-even on `ℝ`. -/
noncomputable def halfEvenRound (x : ℝ) : ℤ :=
  let f := ⌊x⌋
  if x - f < 1 / 2 then f
  else if 1 / 2 < x - f then f + 1
  else if f % 2 = 0 then f else f + 1

/-- Python `round(x, 2)` on the exact value. -/
noncomputable def round2 (x : ℝ) : ℝ :=
  (halfEvenRound (x * 100) : ℝ) / 100

/-- Computable counterpart of `round2` on `ℚ`. -/
def round2Q (q : ℚ) : ℚ :=
  (halfEvenRoundQ (q * 100) : ℚ) / 100

lemma halfEvenRound_ratCast (q : ℚ) : halfEvenRound (q : ℝ) = halfEvenRoundQ q := by
  unfold halfEvenRound halfEvenRoundQ
  rw [Rat.floor_cast]
  have key : (q : ℝ) - ((⌊q⌋ : ℤ) : ℝ) = ((q - (⌊q⌋ : ℤ) : ℚ) : ℝ) := by
    push_cast; ring
  have half : (1 / 2 : ℝ) = ((1 / 2 : ℚ) : ℝ) := by norm_num
  simp only [key, half, Rat.cast_lt]

lemma round2_ratCast (q : ℚ) : round2 (q : ℝ) = (round2Q q : ℝ) := by
  unfold round2 round2Q
  have h : (q : ℝ) * 100 = ((q * 100 : ℚ) : ℝ) := by push_cast; ring
  rw [h, halfEvenRound_ratCast]
  push_cast
  ring

/-- `dataclass FenceSegment`.  The Python field `end` is embedded as `stop`
(`end` is a Lean keyword); `gate_width` is the `Optional[float]` field. -/
structure FenceSegment where
  id : String
  start : Point
  stop : Point
  fence_type : FenceType
  height : ℚ
  is_gate : Bool
  gate_width : Option ℝ

/-- Derived property `FenceSegment.length`. -/
noncomputable def FenceSegment.length (s : FenceSegment) : ℝ :=
  Point.dist s.start s.stop

/-- Raw drawing path point; a `none` coordinate models a missing key or a
non-numeric value (either raises in Python when the point is consumed,
as `KeyError` at the lookup or `TypeError` at the scale division). -/
structure RawPoint where
  x : Option ℚ
  y : Option ℚ

/-- Raw drawing object `{path: [...], scale: ..., height: ...}` with the
`.get` defaults used by `_parse_segments`. -/
structure RawSegment where
  path : List RawPoint
  scale : ℚ := 1
  height : ℚ := 6

/-- Segment id string `f"SEG-{i}-{j}"`. -/
def segId (i j : ℕ) : String :=
  "SEG-" ++ toString i ++ "-" ++ toString j

/-- Inner loop of `_parse_segments` over consecutive point pairs of one path
(`for j in range(len(path) - 1)`).  Failures are the uncaught Python
exceptions, in source evaluation order: malformed coordinate (lookup or
division raises), `scale == 0` (`ZeroDivisionError`), unknown fence type
(`FenceType(fence_type)` raising `ValueError`). -/
noncomputable def parsePairs (ftStr : String) (i : ℕ) (scale height : ℚ) :
    ℕ → List RawPoint → Except String (List FenceSegment)
  | _, [] => pure []
  | _, [_] => pure []
  | j, p :: q :: rest =>
      match p.x, p.y, q.x, q.y with
      | some px, some py, some qx, some qy =>
          if scale = 0 then throw "division by zero" else
          let startP : Point := ⟨px / scale, py / scale⟩
          let endP : Point := ⟨qx / scale, qy / scale⟩
          match FenceType.ofString ftStr with
          | none => throw (ftStr ++ " is not a valid FenceType")
          | some ft =>
              let d2 := Point.dist2 startP endP
              let seg : FenceSegment :=
                ⟨segId i j, startP, endP, ft, height, decide (d2 < 100),
                  if d2 < 100 then some (Point.dist startP endP) else none⟩
              (parsePairs ftStr i scale height (j + 1) (q :: rest)).map
                (fun restSegs => seg :: restSegs)
      | _, _, _, _ => throw "missing or non-numeric coordinate"
termination_by _ pts => pts.length

/-- Outer loop of `_parse_segments`: iterate paths with their index,
skipping any path with fewer than 2 points. -/
noncomputable def parseSegmentsAux (ftStr : String) :
    ℕ → List RawSegment → Except String (List FenceSegment)
  | _, [] => pure []
  | i, r :: rest => do
      let segs ← if r.path.length < 2 then pure [] else
        parsePairs ftStr i r.scale r.height 0 r.path
      let restSegs ← parseSegmentsAux ftStr (i + 1) rest
      pure (segs ++ restSegs)

/-- `FenceCalculationEngine._parse_segments`. -/
noncomputable def parseSegments (raws : List RawSegment) (ftStr : String) :
    Except String (List FenceSegment) :=
  parseSegmentsAux ftStr 0 raws

/-- Embedding of the loosely-typed materials dictionaries: lookup with
default `0`, i.e. Python `materials.get(key, 0)`. -/
def dget (m : List (String × ℝ)) (k : String) : ℝ :=
  match m.find? (fun kv => kv.1 == k) with
  | some kv => kv.2
  | none => 0

/-- Python `key in materials`. -/
def dcontains (m : List (String × ℝ)) (k : String) : Bool :=
  m.any (fun kv => kv.1 == k)

/-- Python `materials[key] = v`: replace the binding if the key is present,
otherwise append it. -/
def dset (m : List (String × ℝ)) (k : String) (v : ℝ) : List (String × ℝ) :=
  if m.any (fun kv => kv.1 == k) then
    m.map (fun kv => if kv.1 == k then (kv.1, v) else kv)
  else m ++ [(k, v)]

/-- `_segments_connected` (tolerance `0.5` ft): some endpoint of one segment
lies within tolerance of some endpoint of the other, in the source's
iteration order over the four endpoint pairs. -/
def segmentsConnected (s1 s2 : FenceSegment) : Bool :=
  decide (Point.dist2 s1.start s2.start ≤ 1 / 4) ||
  decide (Point.dist2 s1.start s2.stop ≤ 1 / 4) ||
  decide (Point.dist2 s1.stop s2.start ≤ 1 / 4) ||
  decide (Point.dist2 s1.stop s2.stop ≤ 1 / 4)

/-- The connection graph `connections[i] = [j for j != i if connected]`,
with neighbor lists in index order. -/
def connectionsOf (segs : List FenceSegment) : Fin segs.length → List (Fin segs.length) :=
  fun i => (List.finRange segs.length).filter
    (fun j => i != j && segmentsConnected (segs.get i) (segs.get j))

/-- Depth-first traversal collecting one connected group.  The source's
recursive `_dfs_connectivity` is embedded as the equivalent explicit
worklist traversal: it produces the same visited set and the same group
membership; only the order of nodes inside a group can differ, which no
claim depends on. -/
def dfsLoop {n : ℕ} (adj : Fin n → List (Fin n)) :
    List (Fin n) → Finset (Fin n) → List (Fin n) → Finset (Fin n) × List (Fin n)
  | [], vis, grp => (vis, grp)
  | v :: stack, vis, grp =>
      if v ∈ vis then dfsLoop adj stack vis grp
      else dfsLoop adj (adj v ++ stack) (insert v vis) (grp ++ [v])
termination_by stack vis _ => ((Finset.univ \ vis).card, stack.length)
decreasing_by
  · apply Prod.Lex.right
    simp
  · apply Prod.Lex.left
    apply Finset.card_lt_card
    refine ⟨Finset.sdiff_subset_sdiff (Finset.Subset.refl _) (Finset.subset_insert _ _), ?_⟩
    intro hsub
    have hv : v ∈ Finset.univ \ vis := Finset.mem_sdiff.mpr ⟨Finset.mem_univ v, by assumption⟩
    have := hsub hv
    exact (Finset.mem_sdiff.mp this).2 (Finset.mem_insert_self v vis)

/-- `analyze_connectivity` at segment-index level: seeds are taken in index
order, each unvisited seed contributes one DFS group. -/
def connectivityGroupsIdx (segs : List FenceSegment) : List (List (Fin segs.length)) :=
  ((List.finRange segs.length).foldl
    (fun st i =>
      if i ∈ st.1 then st
      else
        let r := dfsLoop (connectionsOf segs) [i] st.1 []
        (r.1, st.2 ++ [r.2]))
    ((∅ : Finset (Fin segs.length)), ([] : List (List (Fin segs.length))))).2

/-- `FenceCalculationEngine.analyze_connectivity` (`[segments[idx] for idx in
group]`; the source's early return on an empty list coincides with the
empty fold). -/
def analyzeConnectivity (segs : List FenceSegment) : List (List FenceSegment) :=
  (connectivityGroupsIdx segs).map (fun g => g.map (fun i => segs.get i))

/-- `_find_point_index`: first point of the list within tolerance `0.5`
(squared form `1/4`), if any. -/
def findPointIdx (pts : List Point) (p : Point) : Option ℕ :=
  pts.findIdx? (fun q => decide (Point.dist2 q p ≤ 1 / 4))

/-- One step of stage 1 of `_calculate_posts_for_group`: keep the point list
unchanged if an existing point is within tolerance, else append. -/
def addPoint (pts : List Point) (p : Point) : List Point :=
  match findPointIdx pts p with
  | some _ => pts
  | none => pts ++ [p]

/-- Stage 1 of `_calculate_posts_for_group`: deduplicated point list, built
from each segment's `start` then `end` in group order. -/
def buildPoints (group : List FenceSegment) : List Point :=
  group.foldl (fun pts seg => addPoint (addPoint pts seg.start) seg.stop) []

/-- Stage 2 contribution of one segment to `point_connections[k]`: the source
appends `end_idx` to the start point's list and `start_idx` to the end
point's list (when both indices resolve, which they always do). -/
def segmentContrib (pts : List Point) (seg : FenceSegment) (k : ℕ) : List ℕ :=
  match findPointIdx pts seg.start, findPointIdx pts seg.stop with
  | some s, some e => (if k = s then [e] else []) ++ (if k = e then [s] else [])
  | _, _ => []

/-- `point_connections[k]` after stage 2, contributions in group order. -/
def pointAdj (group : List FenceSegment) (pts : List Point) (k : ℕ) : List ℕ :=
  group.flatMap (fun seg => segmentContrib pts seg k)

/-- `connection_count = len(set(connections))`: number of distinct logical
points adjacent to point `k`. -/
def pointDegree (group : List FenceSegment) (pts : List Point) (k : ℕ) : ℕ :=
  ((pointAdj group pts k).dedup).length

/-- The classification loop over `point_connections.items()`, accumulating
`(corner_posts, end_posts)`. -/
def endCornerCounts (group : List FenceSegment) (pts : List Point) : ℤ × ℤ :=
  (List.range pts.length).foldl
    (fun (acc : ℤ × ℤ) k =>
      let c := pointDegree group pts k
      if c = 1 then (acc.1, acc.2 + 1)
      else if 2 < c then (acc.1 + 1, acc.2)
      else acc)
    (0, 0)

/-- `sum(seg.length for seg in group if not seg.is_gate)`. -/
noncomputable def nonGateLength (group : List FenceSegment) : ℝ :=
  ((group.filter (fun s => !s.is_gate)).map FenceSegment.length).sum

/-- `FenceCalculationEngine._calculate_posts_for_group`. -/
noncomputable def calculatePostsForGroup (group : List FenceSegment)
    (specs : MaterialSpecs) : ℤ :=
  if group.isEmpty then 0
  else
    let pts := buildPoints group
    let counts := endCornerCounts group pts
    let corner_posts := counts.1
    let end_posts := counts.2
    let theoretical_posts : ℤ := ⌈nonGateLength group / (specs.post_spacing : ℝ)⌉
    let line_posts := max 0 (theoretical_posts - corner_posts - end_posts)
    corner_posts + end_posts + line_posts

/-- `sum(seg.length for seg in group)`. -/
noncomputable def totalLength (group : List FenceSegment) : ℝ :=
  (group.map FenceSegment.length).sum

/-- `sum(1 for seg in group if seg.is_gate)`. -/
def gatesNeeded (group : List FenceSegment) : ℕ :=
  group.countP (fun s => s.is_gate)

/-- `sum(seg.gate_width or 0 for seg in group if seg.is_gate)` (for the
numeric field, `x or 0` is the identity except that it maps `None` to 0). -/
noncomputable def gateWidthSum (group : List FenceSegment) : ℝ :=
  ((group.filter (fun s => s.is_gate)).map (fun s => s.gate_width.getD 0)).sum

/-- `panels_needed = ceil(fence_length / panel_width)` where `fence_length`
is total length minus the gate widths. -/
noncomputable def panelsNeeded (group : List FenceSegment) (specs : MaterialSpecs) : ℤ :=
  ⌈(totalLength group - gateWidthSum group) / (specs.panel_width : ℝ)⌉

/-- `FenceCalculationEngine.calculate_materials_for_group`; the leading
`FenceType(fence_type)` lookup raises on an unknown type. -/
noncomputable def calculateMaterialsForGroup (group : List FenceSegment)
    (ftStr : String) : Except String (List (String × ℝ)) :=
  match FenceType.ofString ftStr with
  | none => throw (ftStr ++ " is not a valid FenceType")
  | some ft =>
      let specs := materialSpecs ft
      let panels := panelsNeeded group specs
      let posts := calculatePostsForGroup group specs
      let hardware := panels * specs.hardware_per_panel
      let gates := gatesNeeded group
      let concrete : ℚ := (posts : ℚ) * specs.concrete_bags_per_post
      let panels_w : ℤ := ⌈(panels : ℚ) * (1 + specs.panel_waste_factor)⌉
      let posts_w : ℤ := ⌈(posts : ℚ) * (1 + specs.post_waste_factor)⌉
      let hardware_w : ℤ := ⌈(hardware : ℚ) * (1 + specs.hardware_waste_factor)⌉
      pure [("panels", (panels_w : ℝ)), ("posts", (posts_w : ℝ)),
        ("hardware", (hardware_w : ℝ)), ("gates", (gates : ℝ)),
        ("concrete_bags", ((⌈concrete⌉ : ℤ) : ℝ)),
        ("total_length", totalLength group)]

/-- The dictionary returned by `calculate_pricing`. -/
structure CostBreakdown where
  material_cost : ℝ
  labor_cost : ℝ
  gate_cost : ℝ
  concrete_cost : ℝ
  hardware_cost : ℝ
  subtotal : ℝ
  markup : ℝ
  tax : ℝ
  total_cost : ℝ
  cost_per_foot : ℝ

/-- `FenceCalculationEngine.calculate_pricing`: the two-level dictionary
defaulting (`pricing_data.get(fence_type, {})`, then `.get(key, 0)`)
yields the all-zero price entry for an unknown fence type. -/
noncomputable def calculatePricing (materials : List (String × ℝ))
    (ftStr : String) : CostBreakdown :=
  let p := (pricingData ftStr).getD ⟨0, 0, 0⟩
  let total_length := dget materials "total_length"
  let material_cost := (p.base : ℝ) + total_length * (p.per_foot : ℝ)
  let labor_cost := total_length * (p.labor_per_foot : ℝ)
  let gate_cost := dget materials "gates" * 150
  let concrete_cost := dget materials "concrete_bags" * 8
  let hardware_cost := dget materials "hardware" * 2
  let subtotal := material_cost + labor_cost + gate_cost + concrete_cost + hardware_cost
  let markup := subtotal * 0.20
  let tax := (subtotal + markup) * 0.08
  let total_cost := subtotal + markup + tax
  ⟨round2 material_cost, round2 labor_cost, round2 gate_cost, round2 concrete_cost,
    round2 hardware_cost, round2 subtotal, round2 markup, round2 tax,
    round2 total_cost,
    if 0 < total_length then round2 (total_cost / total_length) else 0⟩

/-- `FenceCalculationEngine.optimize_cuts`: raises on an unknown fence type,
otherwise re-assigns the unchanged panel count and annotates a fixed
`cut_waste_factor` when a `panels` entry exists. -/
noncomputable def optimizeCuts (materials : List (String × ℝ))
    (ftStr : String) : Except String (List (String × ℝ)) :=
  match FenceType.ofString ftStr with
  | none => throw (ftStr ++ " is not a valid FenceType")
  | some _ =>
      if dcontains materials "panels" then
        let panel_count := dget materials "panels"
        pure (dset (dset materials "panels" panel_count) "cut_waste_factor" 0.03)
      else pure materials

/-- The calculation report (the serialized per-segment echo list of
`_segment_to_dict` is omitted: no claim inspects it). -/
structure Report where
  total_length : ℝ
  segment_count : ℕ
  connected_groups : ℕ
  materials : List (String × ℝ)
  cost_breakdown : CostBreakdown

/-- Merging one group's materials into the running totals:
`total_materials[m] = total_materials.get(m, 0) + quantity`. -/
def mergeMaterials (total groupM : List (String × ℝ)) : List (String × ℝ) :=
  groupM.foldl (fun acc kv => dset acc kv.1 (dget acc kv.1 + kv.2)) total

/-- Result of `calculate_fence_project`: a report (`success: True`) or a
structured error (`success: False` with the exception text). -/
inductive CalcResult where
  | report (r : Report)
  | error (msg : String)

/-- Body of the `try` block of `calculate_fence_project`.  The per-group
`calculate_pricing` call of the source only feeds the dead `total_cost`
accumulator, which the returned report ignores, so it is not replayed. -/
noncomputable def calcProject (segments : List RawSegment) (ftStr : String) :
    Except String Report := do
  let fsegs ← parseSegments segments ftStr
  let groups := analyzeConnectivity fsegs
  let totals ← groups.foldlM
    (fun acc g => do
      let gm ← calculateMaterialsForGroup g ftStr
      pure (mergeMaterials acc gm))
    ([] : List (String × ℝ))
  let optimized ← optimizeCuts totals ftStr
  pure ⟨totalLength fsegs, fsegs.length, groups.length, optimized,
    calculatePricing optimized ftStr⟩

/-- `FenceCalculationEngine.calculate_fence_project` with its try/except
wrapper: any raised error becomes the structured error result. -/
noncomputable def calculateFenceProject (segments : List RawSegment)
    (ftStr : String) : CalcResult :=
  match calcProject segments ftStr with
  | .ok r => .report r
  | .error e => .error e

lemma round2_eval (x : ℝ) (q r : ℚ) (hx : x = (q : ℝ)) (hr : round2Q q = r) :
    round2 x = (r : ℝ) := by
  rw [hx, round2_ratCast, hr]

lemma ceil_eval (q : ℚ) (n : ℤ) (h1 : (n : ℚ) - 1 < q) (h2 : q ≤ (n : ℚ)) :
    ⌈q⌉ = n :=
  Int.ceil_eq_iff.mpr ⟨h1, h2⟩

lemma ceil_evalR (x : ℝ) (n : ℤ) (h1 : (n : ℝ) - 1 < x) (h2 : x ≤ (n : ℝ)) :
    ⌈x⌉ = n :=
  Int.ceil_eq_iff.mpr ⟨h1, h2⟩

/-- Declarative corner-post count: merged points of degree `> 2`. -/
def cornerPostCount (group : List FenceSegment) : ℤ :=
  ((List.range (buildPoints group).length).countP
    (fun k => decide (2 < pointDegree group (buildPoints group) k)) : ℤ)

/-- Declarative end-post count: merged points of degree `1`. -/
def endPostCount (group : List FenceSegment) : ℤ :=
  ((List.range (buildPoints group).length).countP
    (fun k => decide (pointDegree group (buildPoints group) k = 1)) : ℤ)

lemma endCornerFold (group : List FenceSegment) (pts : List Point)
    (l : List ℕ) (acc : ℤ × ℤ) :
    l.foldl
      (fun (acc : ℤ × ℤ) k =>
        let c := pointDegree group pts k
        if c = 1 then (acc.1, acc.2 + 1)
        else if 2 < c then (acc.1 + 1, acc.2)
        else acc)
      acc =
    (acc.1 + (l.countP (fun k => decide (2 < pointDegree group pts k)) : ℤ),
     acc.2 + (l.countP (fun k => decide (pointDegree group pts k = 1)) : ℤ)) := by
  induction l generalizing acc with
  | nil => simp
  | cons k t ih =>
      simp only [List.foldl_cons, List.countP_cons, ih]
      by_cases h1 : pointDegree group pts k = 1
      · have h2 : ¬ 2 < pointDegree group pts k := by omega
        simp [h1, h2]
        ring
      · by_cases h2 : 2 < pointDegree group pts k
        · simp [h1, h2]
          ring
        · simp [h1, h2]

lemma endCornerCounts_spec (group : List FenceSegment) (pts : List Point) :
    endCornerCounts group pts =
      (((List.range pts.length).countP
          (fun k => decide (2 < pointDegree group pts k)) : ℤ),
       ((List.range pts.length).countP
          (fun k => decide (pointDegree group pts k = 1)) : ℤ)) := by
  unfold endCornerCounts
  rw [endCornerFold]
  simp

/-- C4: for every connected group and material spec, the post count is
`corner_posts + end_posts + line_posts`: after merging the group's endpoints
within the 0.5 ft tolerance into logical points, a logical point of degree 1
is an end post, one of degree `> 2` a corner post, one of degree 2 neither,
and `line_posts = max(0, ceil(total_non_gate_length / post_spacing) -
corner_posts - end_posts)`. -/
theorem posts_decomposition (group : List FenceSegment) (specs : MaterialSpecs) :
    calculatePostsForGroup group specs =
      cornerPostCount group + endPostCount group +
        max 0 (⌈nonGateLength group / (specs.post_spacing : ℝ)⌉ -
          cornerPostCount group - endPostCount group) := by
  unfold calculatePostsForGroup
  by_cases hg : group.isEmpty
  · have hgroup : group = [] := List.isEmpty_iff.mp hg
    subst hgroup
    have hpts : buildPoints [] = [] := rfl
    have hng : nonGateLength [] = 0 := by simp [nonGateLength]
    simp [hg, cornerPostCount, endPostCount, hpts, hng]
  · simp only [hg, if_false, Bool.false_eq_true]
    rw [endCornerCounts_spec]
    rfl

/-- C6: for every merged material totals value and price entry, the cost
breakdown is `material_cost = base + total_length * per_foot_material`,
`labor_cost = total_length * per_foot_labor`, `gate_cost = gates * 150`,
`concrete_cost = concrete_bags * 8`, `hardware_cost = hardware * 2`,
`subtotal` their sum, `markup = subtotal * 0.20`,
`tax = (subtotal + markup) * 0.08`, `total_cost = subtotal + markup + tax`,
`cost_per_foot = total_cost / total_length` when `total_length > 0` else 0,
all rounded to 2 decimals only at output; in particular with
`total_length = 100` and the vinyl-privacy defaults, `material_cost = 1825`
and `labor_cost = 800`. -/
theorem pricing_formulas :
    (∀ (m : List (String × ℝ)) (ftStr : String) (p : PriceEntry),
        pricingData ftStr = some p →
        calculatePricing m ftStr =
          ⟨round2 ((p.base : ℝ) + dget m "total_length" * (p.per_foot : ℝ)),
           round2 (dget m "total_length" * (p.labor_per_foot : ℝ)),
           round2 (dget m "gates" * 150),
           round2 (dget m "concrete_bags" * 8),
           round2 (dget m "hardware" * 2),
           round2 ((p.base : ℝ) + dget m "total_length" * (p.per_foot : ℝ) +
             dget m "total_length" * (p.labor_per_foot : ℝ) + dget m "gates" * 150 +
             dget m "concrete_bags" * 8 + dget m "hardware" * 2),
           round2 (((p.base : ℝ) + dget m "total_length" * (p.per_foot : ℝ) +
             dget m "total_length" * (p.labor_per_foot : ℝ) + dget m "gates" * 150 +
             dget m "concrete_bags" * 8 + dget m "hardware" * 2) * 0.20),
           round2 ((((p.base : ℝ) + dget m "total_length" * (p.per_foot : ℝ) +
             dget m "total_length" * (p.labor_per_foot : ℝ) + dget m "gates" * 150 +
             dget m "concrete_bags" * 8 + dget m "hardware" * 2) +
             ((p.base : ℝ) + dget m "total_length" * (p.per_foot : ℝ) +
             dget m "total_length" * (p.labor_per_foot : ℝ) + dget m "gates" * 150 +
             dget m "concrete_bags" * 8 + dget m "hardware" * 2) * 0.20) * 0.08),
           round2 (((p.base : ℝ) + dget m "total_length" * (p.per_foot : ℝ) +
             dget m "total_length" * (p.labor_per_foot : ℝ) + dget m "gates" * 150 +
             dget m "concrete_bags" * 8 + dget m "hardware" * 2) +
             ((p.base : ℝ) + dget m "total_length" * (p.per_foot : ℝ) +
             dget m "total_length" * (p.labor_per_foot : ℝ) + dget m "gates" * 150 +
             dget m "concrete_bags" * 8 + dget m "hardware" * 2) * 0.20 +
             (((p.base : ℝ) + dget m "total_length" * (p.per_foot : ℝ) +
             dget m "total_length" * (p.labor_per_foot : ℝ) + dget m "gates" * 150 +
             dget m "concrete_bags" * 8 + dget m "hardware" * 2) +
             ((p.base : ℝ) + dget m "total_length" * (p.per_foot : ℝ) +
             dget m "total_length" * (p.labor_per_foot : ℝ) + dget m "gates" * 150 +
             dget m "concrete_bags" * 8 + dget m "hardware" * 2) * 0.20) * 0.08),
           if 0 < dget m "total_length" then
             round2 ((((p.base : ℝ) + dget m "total_length" * (p.per_foot : ℝ) +
               dget m "total_length" * (p.labor_per_foot : ℝ) + dget m "gates" * 150 +
               dget m "concrete_bags" * 8 + dget m "hardware" * 2) +
               ((p.base : ℝ) + dget m "total_length" * (p.per_foot : ℝ) +
               dget m "total_length" * (p.labor_per_foot : ℝ) + dget m "gates" * 150 +
               dget m "concrete_bags" * 8 + dget m "hardware" * 2) * 0.20 +
               (((p.base : ℝ) + dget m "total_length" * (p.per_foot : ℝ) +
               dget m "total_length" * (p.labor_per_foot : ℝ) + dget m "gates" * 150 +
               dget m "concrete_bags" * 8 + dget m "hardware" * 2) +
               ((p.base : ℝ) + dget m "total_length" * (p.per_foot : ℝ) +
               dget m "total_length" * (p.labor_per_foot : ℝ) + dget m "gates" * 150 +
               dget m "concrete_bags" * 8 + dget m "hardware" * 2) * 0.20) * 0.08) /
               dget m "total_length")
           else 0⟩) ∧
    (calculatePricing [("total_length", (100 : ℝ))] "vinyl-privacy" =
      ⟨1825, 800, 0, 0, 0, 2625, 525, 252, 3402, 3402 / 100⟩) := by
  constructor
  · intro m ftStr p hp
    simp only [calculatePricing, hp, Option.getD_some]
  · have hL : dget [("total_length", (100 : ℝ))] "total_length" = 100 := rfl
    have hg : dget [("total_length", (100 : ℝ))] "gates" = 0 := rfl
    have hc : dget [("total_length", (100 : ℝ))] "concrete_bags" = 0 := rfl
    have hh : dget [("total_length", (100 : ℝ))] "hardware" = 0 := rfl
    have hp : pricingData "vinyl-privacy" = some ⟨25, 18, 8⟩ := rfl
    simp only [calculatePricing, hp, Option.getD_some, hL, hg, hc, hh]
    rw [if_pos (by norm_num : (0 : ℝ) < 100)]
    simp only [CostBreakdown.mk.injEq]
    refine ⟨?_, ?_, ?_, ?_, ?_, ?_, ?_, ?_, ?_, ?_⟩
    · rw [round2_eval _ 1825 1825 (by push_cast; norm_num)
        (by norm_num [round2Q, halfEvenRoundQ])]
      norm_num
    · rw [round2_eval _ 800 800 (by push_cast; norm_num)
        (by norm_num [round2Q, halfEvenRoundQ])]
      norm_num
    · rw [round2_eval _ 0 0 (by push_cast; norm_num)
        (by norm_num [round2Q, halfEvenRoundQ])]
      norm_num
    · rw [round2_eval _ 0 0 (by push_cast; norm_num)
        (by norm_num [round2Q, halfEvenRoundQ])]
      norm_num
    · rw [round2_eval _ 0 0 (by push_cast; norm_num)
        (by norm_num [round2Q, halfEvenRoundQ])]
      norm_num
    · rw [round2_eval _ 2625 2625 (by push_cast; norm_num)
        (by norm_num [round2Q, halfEvenRoundQ])]
      norm_num
    · rw [round2_eval _ 525 525 (by push_cast; norm_num)
        (by norm_num [round2Q, halfEvenRoundQ])]
      norm_num
    · rw [round2_eval _ 252 252 (by push_cast; norm_num)
        (by norm_num [round2Q, halfEvenRoundQ])]
      norm_num
    · rw [round2_eval _ 3402 3402 (by push_cast; norm_num)
        (by norm_num [round2Q, halfEvenRoundQ])]
      norm_num
    · rw [round2_eval _ (1701 / 50) (1701 / 50) (by push_cast; norm_num)
        (by norm_num [round2Q, halfEvenRoundQ])]
      norm_num

theorem pricing_formulas_witness :
    (calculatePricing [] "vinyl-privacy").material_cost =
      round2 (((25 : ℚ) : ℝ) + dget [] "total_length" * ((18 : ℚ) : ℝ)) := by
  have h := pricing_formulas.1 [] "vinyl-privacy" ⟨25, 18, 8⟩ rfl
  rw [h]

/-- C5: for every connected group and its material spec, panels are
`ceil((total_length - gate widths) / panel_width)`, gates the `is_gate`
count, hardware `panels * hardware_per_panel`, concrete bags
`ceil(posts_needed * concrete_bags_per_post)`, and panel, post and
hardware quantities each independently become
`ceil(raw_qty * (1 + waste_factor))`. -/
theorem materials_formulas (group : List FenceSegment) (ftStr : String)
    (ft : FenceType) (hft : FenceType.ofString ftStr = some ft) :
    calculateMaterialsForGroup group ftStr = .ok
      [("panels",
        ((⌈((⌈(totalLength group - gateWidthSum group) /
              ((materialSpecs ft).panel_width : ℝ)⌉ : ℤ) : ℚ) *
            (1 + (materialSpecs ft).panel_waste_factor)⌉ : ℤ) : ℝ)),
       ("posts",
        ((⌈((calculatePostsForGroup group (materialSpecs ft) : ℤ) : ℚ) *
            (1 + (materialSpecs ft).post_waste_factor)⌉ : ℤ) : ℝ)),
       ("hardware",
        ((⌈(((⌈(totalLength group - gateWidthSum group) /
              ((materialSpecs ft).panel_width : ℝ)⌉ : ℤ) *
              (materialSpecs ft).hardware_per_panel : ℤ) : ℚ) *
            (1 + (materialSpecs ft).hardware_waste_factor)⌉ : ℤ) : ℝ)),
       ("gates", (group.countP (fun s => s.is_gate) : ℝ)),
       ("concrete_bags",
        ((⌈((calculatePostsForGroup group (materialSpecs ft) : ℤ) : ℚ) *
            (materialSpecs ft).concrete_bags_per_post⌉ : ℤ) : ℝ)),
       ("total_length", totalLength group)] := by
  simp only [calculateMaterialsForGroup, hft, panelsNeeded, gatesNeeded]
  rfl

theorem materials_formulas_witness :
    FenceType.ofString "vinyl-privacy" = some FenceType.vinyl_privacy ∧
    calculateMaterialsForGroup [] "vinyl-privacy" = .ok
      [("panels",
        ((⌈((⌈(totalLength [] - gateWidthSum []) /
              ((materialSpecs FenceType.vinyl_privacy).panel_width : ℝ)⌉ : ℤ) : ℚ) *
            (1 + (materialSpecs FenceType.vinyl_privacy).panel_waste_factor)⌉ : ℤ) : ℝ)),
       ("posts",
        ((⌈((calculatePostsForGroup [] (materialSpecs FenceType.vinyl_privacy) : ℤ) : ℚ) *
            (1 + (materialSpecs FenceType.vinyl_privacy).post_waste_factor)⌉ : ℤ) : ℝ)),
       ("hardware",
        ((⌈(((⌈(totalLength [] - gateWidthSum []) /
              ((materialSpecs FenceType.vinyl_privacy).panel_width : ℝ)⌉ : ℤ) *
              (materialSpecs FenceType.vinyl_privacy).hardware_per_panel : ℤ) : ℚ) *
            (1 + (materialSpecs FenceType.vinyl_privacy).hardware_waste_factor)⌉ : ℤ) : ℝ)),
       ("gates", (List.countP (fun s => s.is_gate) ([] : List FenceSegment) : ℝ)),
       ("concrete_bags",
        ((⌈((calculatePostsForGroup [] (materialSpecs FenceType.vinyl_privacy) : ℤ) : ℚ) *
            (materialSpecs FenceType.vinyl_privacy).concrete_bags_per_post⌉ : ℤ) : ℝ)),
       ("total_length", totalLength [])] :=
  ⟨rfl, materials_formulas [] "vinyl-privacy" FenceType.vinyl_privacy rfl⟩

lemma exceptBind_ok {ε α β : Type} (x : Except ε α) (f : α → Except ε β) (b : β)
    (h : x.bind f = .ok b) : ∃ a, x = .ok a ∧ f a = .ok b := by
  cases x with
  | error e => simp [Except.bind] at h
  | ok a => exact ⟨a, rfl, h⟩

lemma exceptMap_ok {ε α β : Type} (f : α → β) (x : Except ε α) (b : β)
    (h : x.map f = .ok b) : ∃ a, x = .ok a ∧ f a = b := by
  cases x with
  | error e => simp [Except.map] at h
  | ok a =>
      simp only [Except.map, Except.ok.injEq] at h
      exact ⟨a, rfl, h⟩

/-- Every segment constructed by the pair loop carries the resolved fence
type, the gate flag `length < 10` (in squared form), and the matching
`gate_width`. -/
lemma parsePairs_mem (ftStr : String) (i : ℕ) (scale height : ℚ) :
    ∀ (pts : List RawPoint) (j : ℕ) (l : List FenceSegment),
      parsePairs ftStr i scale height j pts = Except.ok l →
      ∀ s ∈ l,
        FenceType.ofString ftStr = some s.fence_type ∧
        s.is_gate = decide (Point.dist2 s.start s.stop < 100) ∧
        s.gate_width = (if Point.dist2 s.start s.stop < 100
          then some (FenceSegment.length s) else none) := by
  intro pts
  induction pts with
  | nil =>
      intro j l h s hs
      simp only [parsePairs, pure, Except.pure] at h
      injection h with h'
      subst h'
      simp at hs
  | cons p tail ih =>
      intro j l h s hs
      cases tail with
      | nil =>
          simp only [parsePairs, pure, Except.pure] at h
          injection h with h'
          subst h'
          simp at hs
      | cons q rest =>
          simp only [parsePairs] at h
          cases hpx : p.x with
          | none => rw [hpx] at h; exact Except.noConfusion h
          | some px =>
          cases hpy : p.y with
          | none => rw [hpx, hpy] at h; exact Except.noConfusion h
          | some py =>
          cases hqx : q.x with
          | none => rw [hpx, hpy, hqx] at h; exact Except.noConfusion h
          | some qx =>
          cases hqy : q.y with
          | none => rw [hpx, hpy, hqx, hqy] at h; exact Except.noConfusion h
          | some qy =>
          rw [hpx, hpy, hqx, hqy] at h
          simp only at h
          by_cases hs0 : scale = 0
          · rw [if_pos hs0] at h; exact Except.noConfusion h
          · rw [if_neg hs0] at h
            cases hft : FenceType.ofString ftStr with
            | none =>
                rw [hft] at h
                exact Except.noConfusion h
            | some ft =>
                rw [hft] at h
                simp only at h
                obtain ⟨l2, hrec, hl⟩ := exceptMap_ok _ _ _ h
                subst hl
                rcases List.mem_cons.mp hs with rfl | htail
                · exact ⟨rfl, rfl, rfl⟩
                · rw [← hft]
                  exact ih (j + 1) l2 hrec s htail

/-- Lift of `parsePairs_mem` through the outer path loop. -/
lemma parseSegmentsAux_mem (ftStr : String) :
    ∀ (raws : List RawSegment) (i : ℕ) (l : List FenceSegment),
      parseSegmentsAux ftStr i raws = Except.ok l →
      ∀ s ∈ l,
        FenceType.ofString ftStr = some s.fence_type ∧
        s.is_gate = decide (Point.dist2 s.start s.stop < 100) ∧
        s.gate_width = (if Point.dist2 s.start s.stop < 100
          then some (FenceSegment.length s) else none) := by
  intro raws
  induction raws with
  | nil =>
      intro i l h s hs
      simp only [parseSegmentsAux, pure, Except.pure] at h
      injection h with h'
      subst h'
      simp at hs
  | cons r rest ih =>
      intro i l h s hs
      simp only [parseSegmentsAux] at h
      by_cases hlen : r.path.length < 2
      · rw [if_pos hlen] at h
        obtain ⟨a, ha, h2⟩ := exceptBind_ok _ _ _ h
        obtain ⟨b, hb, h3⟩ := exceptBind_ok _ _ _ h2
        simp only [pure, Except.pure] at h3 ha
        injection h3 with h3'
        subst h3'
        injection ha with ha'
        subst ha'
        rcases List.mem_append.mp hs with hmem | hmem
        · simp at hmem
        · exact ih (i + 1) b hb s hmem
      · rw [if_neg hlen] at h
        obtain ⟨a, ha, h2⟩ := exceptBind_ok _ _ _ h
        obtain ⟨b, hb, h3⟩ := exceptBind_ok _ _ _ h2
        simp only [pure, Except.pure] at h3
        injection h3 with h3'
        subst h3'
        rcases List.mem_append.mp hs with hmem | hmem
        · exact parsePairs_mem ftStr i r.scale r.height r.path 0 a ha s hmem
        · exact ih (i + 1) b hb s hmem

/-- C9 supporting form at the `_parse_segments` boundary. -/
lemma parseSegments_mem (raws : List RawSegment) (ftStr : String)
    (l : List FenceSegment) (h : parseSegments raws ftStr = Except.ok l) :
    ∀ s ∈ l,
      FenceType.ofString ftStr = some s.fence_type ∧
      s.is_gate = decide (Point.dist2 s.start s.stop < 100) ∧
      s.gate_width = (if Point.dist2 s.start s.stop < 100
        then some (FenceSegment.length s) else none) :=
  parseSegmentsAux_mem ftStr raws 0 l h

/-- C9: every parsed segment is classified `is_gate = true` exactly when its
post-scaling length is strictly less than 10.0 ft, and in that case
`gate_width` equals that length (otherwise it is `None`); hence a 6 ft
segment is a gate and a 12 ft segment is not (see the witness). -/
theorem gate_classification (raws : List RawSegment) (ftStr : String)
    (l : List FenceSegment) (h : parseSegments raws ftStr = Except.ok l)
    (s : FenceSegment) (hs : s ∈ l) :
    (s.is_gate = true ↔ FenceSegment.length s < 10) ∧
    (s.is_gate = true → s.gate_width = some (FenceSegment.length s)) ∧
    (s.is_gate = false → s.gate_width = none) := by
  obtain ⟨-, hgate, hwidth⟩ := parseSegments_mem raws ftStr l h s hs
  have hcond : s.is_gate = true ↔ Point.dist2 s.start s.stop < 100 := by
    rw [hgate]
    simp
  have hlen : FenceSegment.length s < 10 ↔ Point.dist2 s.start s.stop < 100 := by
    have hb := Point.dist_lt_iff s.start s.stop 10 (by norm_num)
    have h10 : ((10 : ℚ) : ℝ) = 10 := by norm_num
    have h100 : (10 : ℚ) ^ 2 = 100 := by norm_num
    rw [h10, h100] at hb
    exact hb
  refine ⟨hcond.trans hlen.symm, ?_, ?_⟩
  · intro hg
    rw [hwidth, if_pos (hcond.mp hg)]
  · intro hg
    have hnc : ¬ Point.dist2 s.start s.stop < 100 := by
      intro hc
      rw [hcond.mpr hc] at hg
      exact Bool.noConfusion hg
    rw [hwidth, if_neg hnc]

/-- Demo raw input: one 6 ft path and one 12 ft path, scale 1. -/
def demoGateRaws : List RawSegment :=
  [⟨[⟨some 0, some 0⟩, ⟨some 6, some 0⟩], 1, 6⟩,
   ⟨[⟨some 0, some 10⟩, ⟨some 12, some 10⟩], 1, 6⟩]

/-- The 6 ft demo segment as parsed. -/
noncomputable def demoSeg6 : FenceSegment :=
  ⟨segId 0 0, ⟨0, 0⟩, ⟨6, 0⟩, FenceType.vinyl_privacy, 6, true, some 6⟩

/-- The 12 ft demo segment as parsed. -/
noncomputable def demoSeg12 : FenceSegment :=
  ⟨segId 1 0, ⟨0, 10⟩, ⟨12, 10⟩, FenceType.vinyl_privacy, 6, false, none⟩

lemma demo_parse_eval :
    parseSegments demoGateRaws "vinyl-privacy" = Except.ok [demoSeg6, demoSeg12] := by
  have hd6 : Point.dist ⟨0, 0⟩ ⟨6, 0⟩ = (6 : ℝ) := by
    rw [Point.dist_horiz]
    norm_num
  simp only [demoGateRaws, parseSegments, parseSegmentsAux, parsePairs,
    FenceType.ofString, demoSeg6, demoSeg12, Point.dist2]
  norm_num [hd6, segId, Point.dist2, Except.map, Except.pure, Except.bind,
    bind, pure, Functor.map]

theorem gate_classification_witness :
    (demoSeg6.is_gate = true ↔ FenceSegment.length demoSeg6 < 10) ∧
    (demoSeg12.is_gate = true ↔ FenceSegment.length demoSeg12 < 10) ∧
    demoSeg6.is_gate = true ∧ demoSeg12.is_gate = false :=
  ⟨(gate_classification demoGateRaws "vinyl-privacy" _ demo_parse_eval demoSeg6
      (List.mem_cons_self _ _)).1,
   (gate_classification demoGateRaws "vinyl-privacy" _ demo_parse_eval demoSeg12
      (List.mem_cons_of_mem _ (List.mem_cons_self _ _))).1,
   rfl, rfl⟩

/-- A single segment always forms the single group `[[s]]`. -/
lemma analyzeConnectivity_singleton (s : FenceSegment) :
    analyzeConnectivity [s] = [[s]] := by
  have hadj : ∀ i : Fin ([s] : List FenceSegment).length, connectionsOf [s] i = [] := by
    intro i
    have : i = ⟨0, by norm_num⟩ := by
      apply Fin.ext
      show (i : ℕ) = 0
      have h2 : (i : ℕ) < 1 := i.isLt
      omega
    subst this
    simp [connectionsOf, List.finRange]
  have h1 : ∀ (vis : Finset (Fin ([s] : List FenceSegment).length))
      (grp : List (Fin ([s] : List FenceSegment).length)) (i : Fin ([s] : List FenceSegment).length),
      i ∉ vis → dfsLoop (connectionsOf [s]) [i] vis grp = (insert i vis, grp ++ [i]) := by
    intro vis grp i hi
    rw [dfsLoop]
    rw [if_neg hi, hadj i]
    simp only [List.nil_append]
    rw [dfsLoop]
  unfold analyzeConnectivity connectivityGroupsIdx
  rw [show List.finRange ([s] : List FenceSegment).length = [⟨0, by norm_num⟩] from rfl]
  simp only [List.foldl_cons, List.foldl_nil]
  rw [if_neg (Finset.not_mem_empty _)]
  simp only [h1 ∅ [] ⟨0, by norm_num⟩ (Finset.not_mem_empty _)]
  simp

/-- Demo raw input containing a single degenerate (zero-length) path. -/
def demoDegenRaws : List RawSegment :=
  [⟨[⟨some 0, some 0⟩, ⟨some 0, some 0⟩], 1, 6⟩]

/-- The degenerate segment as parsed: classified as a gate of width 0. -/
noncomputable def demoDegenSeg : FenceSegment :=
  ⟨segId 0 0, ⟨0, 0⟩, ⟨0, 0⟩, FenceType.vinyl_privacy, 6, true, some 0⟩

lemma demo_degen_parse :
    parseSegments demoDegenRaws "vinyl-privacy" = Except.ok [demoDegenSeg] := by
  have hd0 : Point.dist ⟨0, 0⟩ ⟨0, 0⟩ = (0 : ℝ) := Point.dist_self _
  simp only [demoDegenRaws, parseSegments, parseSegmentsAux, parsePairs,
    FenceType.ofString, demoDegenSeg, Point.dist2]
  norm_num [hd0, segId, Except.map, Except.pure, Except.bind, bind, pure,
    Functor.map]

lemma demo_degen_length : FenceSegment.length demoDegenSeg = 0 := by
  simp [FenceSegment.length, demoDegenSeg, Point.dist_self]

lemma demo_degen_posts :
    calculatePostsForGroup [demoDegenSeg] (materialSpecs FenceType.vinyl_privacy) = 1 := by
  have hpts : buildPoints [demoDegenSeg] = [⟨0, 0⟩] := by
    simp only [buildPoints, List.foldl_cons, List.foldl_nil, demoDegenSeg]
    norm_num [addPoint, findPointIdx, List.findIdx?, Point.dist2]
  have hadj : pointAdj [demoDegenSeg] [⟨0, 0⟩] 0 = [0, 0] := by
    simp only [pointAdj, segmentContrib, List.flatMap, demoDegenSeg]
    norm_num [findPointIdx, List.findIdx?, Point.dist2]
  have hdeg : pointDegree [demoDegenSeg] [⟨0, 0⟩] 0 = 1 := by
    rw [pointDegree, hadj]
    rfl
  have hng : nonGateLength [demoDegenSeg] = 0 := by
    simp [nonGateLength, demoDegenSeg]
  rw [calculatePostsForGroup]
  rw [if_neg (by simp)]
  rw [hpts, hng]
  simp only [endCornerCounts, List.length_singleton]
  rw [show List.range 1 = [0] from rfl]
  simp only [List.foldl_cons, List.foldl_nil, hdeg]
  norm_num

lemma demo_degen_materials :
    calculateMaterialsForGroup [demoDegenSeg] "vinyl-privacy" =
      Except.ok [("panels", (0 : ℝ)), ("posts", 2), ("hardware", 0), ("gates", 1),
        ("concrete_bags", 2), ("total_length", 0)] := by
  rw [materials_formulas [demoDegenSeg] "vinyl-privacy" FenceType.vinyl_privacy rfl]
  have htl : totalLength [demoDegenSeg] = 0 := by
    simp [totalLength, demo_degen_length]
  have hgw : gateWidthSum [demoDegenSeg] = 0 := by
    simp [gateWidthSum, demoDegenSeg]
  rw [htl, hgw, demo_degen_posts]
  norm_num [materialSpecs, demoDegenSeg]
  constructor
  · rw [ceil_eval (51 / 50) 2 (by norm_num) (by norm_num)]
    norm_num
  · rw [ceil_eval (3 / 2) 2 (by norm_num) (by norm_num)]
    norm_num

/-- The report produced for the single degenerate segment. -/
noncomputable def demoDegenReport : Report :=
  ⟨0, 1, 1,
   [("panels", 0), ("posts", 2), ("hardware", 0), ("gates", 1),
    ("concrete_bags", 2), ("total_length", 0), ("cut_waste_factor", 3 / 100)],
   ⟨25, 0, 150, 16, 0, 191, 191 / 5, 917 / 50, 12377 / 50, 0⟩⟩

lemma demo_degen_merge :
    mergeMaterials [] [("panels", (0 : ℝ)), ("posts", 2), ("hardware", 0), ("gates", 1),
      ("concrete_bags", 2), ("total_length", 0)] =
    [("panels", (0 : ℝ)), ("posts", 2), ("hardware", 0), ("gates", 1),
      ("concrete_bags", 2), ("total_length", 0)] := by
  simp [mergeMaterials, dset, dget]

lemma demo_degen_optimize :
    optimizeCuts [("panels", (0 : ℝ)), ("posts", 2), ("hardware", 0), ("gates", 1),
      ("concrete_bags", 2), ("total_length", 0)] "vinyl-privacy" =
    Except.ok [("panels", (0 : ℝ)), ("posts", 2), ("hardware", 0), ("gates", 1),
      ("concrete_bags", 2), ("total_length", 0), ("cut_waste_factor", 3 / 100)] := by
  simp [optimizeCuts, FenceType.ofString, dcontains, dset, dget]
  norm_num
  rfl

lemma demo_degen_pricing :
    calculatePricing [("panels", (0 : ℝ)), ("posts", 2), ("hardware", 0), ("gates", 1),
      ("concrete_bags", 2), ("total_length", 0), ("cut_waste_factor", 3 / 100)]
      "vinyl-privacy" =
    ⟨25, 0, 150, 16, 0, 191, 191 / 5, 917 / 50, 12377 / 50, 0⟩ := by
  have hp : pricingData "vinyl-privacy" = some ⟨25, 18, 8⟩ := rfl
  have hL : dget [("panels", (0 : ℝ)), ("posts", 2), ("hardware", 0), ("gates", 1),
      ("concrete_bags", 2), ("total_length", 0), ("cut_waste_factor", 3 / 100)]
      "total_length" = 0 := by simp [dget]
  have hg : dget [("panels", (0 : ℝ)), ("posts", 2), ("hardware", 0), ("gates", 1),
      ("concrete_bags", 2), ("total_length", 0), ("cut_waste_factor", 3 / 100)]
      "gates" = 1 := by simp [dget]
  have hc : dget [("panels", (0 : ℝ)), ("posts", 2), ("hardware", 0), ("gates", 1),
      ("concrete_bags", 2), ("total_length", 0), ("cut_waste_factor", 3 / 100)]
      "concrete_bags" = 2 := by simp [dget]
  have hh : dget [("panels", (0 : ℝ)), ("posts", 2), ("hardware", 0), ("gates", 1),
      ("concrete_bags", 2), ("total_length", 0), ("cut_waste_factor", 3 / 100)]
      "hardware" = 0 := by simp [dget]
  simp only [calculatePricing, hp, Option.getD_some, hL, hg, hc, hh]
  rw [if_neg (by norm_num)]
  simp only [CostBreakdown.mk.injEq]
  refine ⟨?_, ?_, ?_, ?_, ?_, ?_, ?_, ?_, ?_, trivial⟩
  · rw [round2_eval _ 25 25 (by push_cast; norm_num)
      (by norm_num [round2Q, halfEvenRoundQ])]
    norm_num
  · rw [round2_eval _ 0 0 (by push_cast; norm_num)
      (by norm_num [round2Q, halfEvenRoundQ])]
    norm_num
  · rw [round2_eval _ 150 150 (by push_cast; norm_num)
      (by norm_num [round2Q, halfEvenRoundQ])]
    norm_num
  · rw [round2_eval _ 16 16 (by push_cast; norm_num)
      (by norm_num [round2Q, halfEvenRoundQ])]
    norm_num
  · rw [round2_eval _ 0 0 (by push_cast; norm_num)
      (by norm_num [round2Q, halfEvenRoundQ])]
    norm_num
  · rw [round2_eval _ 191 191 (by push_cast; norm_num)
      (by norm_num [round2Q, halfEvenRoundQ])]
    norm_num
  · rw [round2_eval _ (191 / 5) (191 / 5) (by push_cast; norm_num)
      (by norm_num [round2Q, halfEvenRoundQ])]
    norm_num
  · rw [round2_eval _ (2292 / 125) (917 / 50) (by push_cast; norm_num)
      (by norm_num [round2Q, halfEvenRoundQ])]
    norm_num
  · rw [round2_eval _ (30942 / 125) (12377 / 50) (by push_cast; norm_num)
      (by norm_num [round2Q, halfEvenRoundQ])]
    norm_num

lemma demo_degen_project :
    calcProject demoDegenRaws "vinyl-privacy" = Except.ok demoDegenReport := by
  have htl : totalLength [demoDegenSeg] = 0 := by
    simp [totalLength, demo_degen_length]
  unfold calcProject
  rw [demo_degen_parse]
  simp only [bind, Except.bind]
  rw [analyzeConnectivity_singleton]
  simp only [List.foldlM, bind, Except.bind]
  rw [demo_degen_materials]
  simp only [pure, Except.pure]
  rw [demo_degen_merge, demo_degen_optimize]
  simp only [htl, List.length_cons, List.length_nil]
  rw [demo_degen_pricing]
  simp [demoDegenReport]

/-- C10: a parsed segment whose start and end points coincide is classified
`is_gate = true` with `gate_width = 0.0`, so it is counted in `gates_needed`
and contributes $150 of `gate_cost` to the breakdown (evaluated on the
concrete one-degenerate-segment input), rather than being treated as a
zero-length corner or end marker only. -/
theorem degenerate_segment_gate :
    (∀ (raws : List RawSegment) (ftStr : String) (l : List FenceSegment),
      parseSegments raws ftStr = Except.ok l →
      ∀ s ∈ l, s.start = s.stop →
        s.is_gate = true ∧ s.gate_width = some 0) ∧
    calculateFenceProject demoDegenRaws "vinyl-privacy" =
      CalcResult.report demoDegenReport ∧
    dget demoDegenReport.materials "gates" = 1 ∧
    demoDegenReport.cost_breakdown.gate_cost = 150 := by
  refine ⟨?_, ?_, ?_, rfl⟩
  · intro raws ftStr l h s hs hdeg
    obtain ⟨-, hgate, hwidth⟩ := parseSegments_mem raws ftStr l h s hs
    have hd2 : Point.dist2 s.start s.stop = 0 := by
      rw [hdeg]
      unfold Point.dist2
      ring
    constructor
    · rw [hgate, hd2]
      norm_num
    · rw [hwidth, hd2]
      rw [if_pos (by norm_num)]
      have hz : FenceSegment.length s = 0 := by
        unfold FenceSegment.length
        rw [hdeg, Point.dist_self]
      rw [hz]
  · unfold calculateFenceProject
    rw [demo_degen_project]
  · simp [demoDegenReport, dget]

theorem degenerate_segment_gate_witness :
    demoDegenSeg.is_gate = true ∧ demoDegenSeg.gate_width = some 0 :=
  degenerate_segment_gate.1 demoDegenRaws "vinyl-privacy" [demoDegenSeg]
    demo_degen_parse demoDegenSeg (List.mem_cons_self _ _) rfl

/-- With an unknown fence type the parser can only fail or produce no
segments (every constructed segment resolves the fence type). -/
lemma parse_invalid_ft (raws : List RawSegment) (ftStr : String)
    (hft : FenceType.ofString ftStr = none) :
    (∃ e, parseSegments raws ftStr = Except.error e) ∨
      parseSegments raws ftStr = Except.ok [] := by
  cases hp : parseSegments raws ftStr with
  | error e => exact Or.inl ⟨e, rfl⟩
  | ok l =>
      right
      cases l with
      | nil => rfl
      | cons s t =>
          have hmem := (parseSegments_mem raws ftStr _ hp s (List.mem_cons_self _ _)).1
          rw [hft] at hmem
          exact Option.noConfusion hmem

/-- C8: for every segment list and every fence type string outside the
closed enum, `calculate_fence_project` returns a structured error result
and no report: with at least one parsed segment the `FenceType` lookup in
the parser raises, and with zero parsed segments the lookup in
`optimize_cuts` raises; both are caught and surfaced as the error result. -/
theorem invalid_fence_type_error (raws : List RawSegment) (ftStr : String)
    (hft : FenceType.ofString ftStr = none) :
    ∃ e, calculateFenceProject raws ftStr = CalcResult.error e := by
  rcases parse_invalid_ft raws ftStr hft with ⟨e, he⟩ | hok
  · refine ⟨e, ?_⟩
    unfold calculateFenceProject calcProject
    rw [he]
    rfl
  · refine ⟨ftStr ++ " is not a valid FenceType", ?_⟩
    unfold calculateFenceProject calcProject
    rw [hok]
    simp only [bind, Except.bind]
    rw [show analyzeConnectivity [] = [] from rfl]
    simp only [List.foldlM, pure, Except.pure]
    simp only [optimizeCuts, hft]

theorem invalid_fence_type_error_witness :
    FenceType.ofString "titanium-privacy" = none ∧
    (∃ e, calculateFenceProject [] "titanium-privacy" = CalcResult.error e) :=
  ⟨rfl, invalid_fence_type_error [] "titanium-privacy" rfl⟩

/-- The report actually produced for the empty input. -/
noncomputable def emptyReport : Report :=
  ⟨0, 0, 0, [], ⟨25, 0, 0, 0, 0, 25, 5, 12 / 5, 162 / 5, 0⟩⟩

lemma empty_pricing :
    calculatePricing [] "vinyl-privacy" = ⟨25, 0, 0, 0, 0, 25, 5, 12 / 5, 162 / 5, 0⟩ := by
  have hp : pricingData "vinyl-privacy" = some ⟨25, 18, 8⟩ := rfl
  simp only [calculatePricing, hp, Option.getD_some]
  rw [show dget [] "total_length" = 0 from rfl, show dget [] "gates" = 0 from rfl,
    show dget [] "concrete_bags" = 0 from rfl, show dget [] "hardware" = 0 from rfl]
  rw [if_neg (by norm_num)]
  simp only [CostBreakdown.mk.injEq]
  refine ⟨?_, ?_, ?_, ?_, ?_, ?_, ?_, ?_, ?_, trivial⟩
  · rw [round2_eval _ 25 25 (by push_cast; norm_num)
      (by norm_num [round2Q, halfEvenRoundQ])]
    norm_num
  · rw [round2_eval _ 0 0 (by push_cast; norm_num)
      (by norm_num [round2Q, halfEvenRoundQ])]
    norm_num
  · rw [round2_eval _ 0 0 (by push_cast; norm_num)
      (by norm_num [round2Q, halfEvenRoundQ])]
    norm_num
  · rw [round2_eval _ 0 0 (by push_cast; norm_num)
      (by norm_num [round2Q, halfEvenRoundQ])]
    norm_num
  · rw [round2_eval _ 0 0 (by push_cast; norm_num)
      (by norm_num [round2Q, halfEvenRoundQ])]
    norm_num
  · rw [round2_eval _ 25 25 (by push_cast; norm_num)
      (by norm_num [round2Q, halfEvenRoundQ])]
    norm_num
  · rw [round2_eval _ 5 5 (by push_cast; norm_num)
      (by norm_num [round2Q, halfEvenRoundQ])]
    norm_num
  · rw [round2_eval _ (12 / 5) (12 / 5) (by push_cast; norm_num)
      (by norm_num [round2Q, halfEvenRoundQ])]
    norm_num
  · rw [round2_eval _ (162 / 5) (162 / 5) (by push_cast; norm_num)
      (by norm_num [round2Q, halfEvenRoundQ])]
    norm_num

lemma empty_project_eval :
    calculateFenceProject [] "vinyl-privacy" = CalcResult.report emptyReport := by
  unfold calculateFenceProject calcProject
  rw [show parseSegments [] "vinyl-privacy" = Except.ok [] by
    simp [parseSegments, parseSegmentsAux, pure, Except.pure]]
  simp only [bind, Except.bind]
  rw [show analyzeConnectivity [] = [] from rfl]
  simp only [List.foldlM, pure, Except.pure]
  rw [show optimizeCuts [] "vinyl-privacy" = Except.ok [] by
    simp [optimizeCuts, FenceType.ofString, dcontains, pure, Except.pure]]
  simp [emptyReport, totalLength, empty_pricing]

/-- C1 counterexample: the empty input for `"vinyl-privacy"` does return a
successful report with zero length and zero segments, but its
`total_cost` is 32.40 (the base cost of 25 plus 20% markup and 8% tax is
charged even with no segments), not 0 as claimed. -/
theorem empty_input_counterexample :
    calculateFenceProject [] "vinyl-privacy" = CalcResult.report emptyReport ∧
    emptyReport.cost_breakdown.total_cost = 162 / 5 ∧
    emptyReport.cost_breakdown.total_cost ≠ 0 :=
  ⟨empty_project_eval, rfl, by norm_num [emptyReport]⟩

/-- C1 amended: `calculate([], "vinyl-privacy")` returns a successful report
(not an error) with `total_length == 0` and `segment_count == 0`, but with
`total_cost == 32.40` — the base cost, markup and tax are still charged by
`calculate_pricing` on the empty totals — rather than `total_cost == 0`. -/
theorem empty_input_amended :
    calculateFenceProject [] "vinyl-privacy" = CalcResult.report emptyReport ∧
    emptyReport.total_length = 0 ∧
    emptyReport.segment_count = 0 ∧
    emptyReport.cost_breakdown.total_cost = 162 / 5 :=
  ⟨empty_project_eval, rfl, rfl, rfl⟩

/-- A malformed point in the pair loop always raises (no per-path recovery
exists in `_parse_segments`). -/
lemma parsePairs_malformed (ftStr : String) (i : ℕ) (scale height : ℚ) :
    ∀ (pts : List RawPoint) (j : ℕ), 2 ≤ pts.length →
      (∃ p ∈ pts, p.x = none ∨ p.y = none) →
      ∃ e, parsePairs ftStr i scale height j pts = Except.error e := by
  intro pts
  induction pts with
  | nil => intro j hlen; simp at hlen
  | cons p tail ih =>
      intro j hlen hbad
      cases tail with
      | nil => simp at hlen
      | cons q rest =>
          simp only [parsePairs]
          cases hpx : p.x with
          | none => exact ⟨_, rfl⟩
          | some px =>
          cases hpy : p.y with
          | none => exact ⟨_, rfl⟩
          | some py =>
          cases hqx : q.x with
          | none => exact ⟨_, rfl⟩
          | some qx =>
          cases hqy : q.y with
          | none => exact ⟨_, rfl⟩
          | some qy =>
          simp only
          by_cases hs0 : scale = 0
          · exact ⟨"division by zero", by rw [if_pos hs0]; rfl⟩
          · rw [if_neg hs0]
            cases hft : FenceType.ofString ftStr with
            | none => exact ⟨_, rfl⟩
            | some ft =>
                simp only
                obtain ⟨pbad, hpmem, hpbad⟩ := hbad
                have hbadtail : ∃ p2 ∈ q :: rest, p2.x = none ∨ p2.y = none := by
                  rcases List.mem_cons.mp hpmem with rfl | htail
                  · rcases hpbad with hx | hy
                    · rw [hpx] at hx; exact Option.noConfusion hx
                    · rw [hpy] at hy; exact Option.noConfusion hy
                  · exact ⟨pbad, htail, hpbad⟩
                cases rest with
                | nil =>
                    obtain ⟨p2, hp2mem, hp2bad⟩ := hbadtail
                    have : p2 = q := by simpa using hp2mem
                    subst this
                    rcases hp2bad with hx | hy
                    · rw [hqx] at hx; exact Option.noConfusion hx
                    · rw [hqy] at hy; exact Option.noConfusion hy
                | cons r rest2 =>
                    obtain ⟨e, herr⟩ := ih (j + 1) (by simp) (by
                      obtain ⟨p2, hp2m, hp2b⟩ := hbadtail
                      exact ⟨p2, hp2m, hp2b⟩)
                    exact ⟨e, by rw [herr]; rfl⟩

lemma parseSegmentsAux_malformed (ftStr : String) :
    ∀ (raws : List RawSegment) (i : ℕ),
      (∃ r ∈ raws, 2 ≤ r.path.length ∧ ∃ p ∈ r.path, p.x = none ∨ p.y = none) →
      ∃ e, parseSegmentsAux ftStr i raws = Except.error e := by
  intro raws
  induction raws with
  | nil =>
      intro i h
      obtain ⟨r, hr, -⟩ := h
      simp at hr
  | cons r rest ih =>
      intro i h
      simp only [parseSegmentsAux]
      obtain ⟨r0, hr0mem, hr0len, hr0bad⟩ := h
      rcases List.mem_cons.mp hr0mem with rfl | htail
      · rw [if_neg (by omega)]
        obtain ⟨e, he⟩ := parsePairs_malformed ftStr i r0.scale r0.height r0.path 0 hr0len hr0bad
        exact ⟨e, by rw [he]; rfl⟩
      · by_cases hlen2 : r.path.length < 2
        · rw [if_pos hlen2]
          obtain ⟨e, he⟩ := ih (i + 1) ⟨r0, htail, hr0len, hr0bad⟩
          refine ⟨e, ?_⟩
          simp only [bind, Except.bind, pure, Except.pure]
          rw [he]
        · rw [if_neg hlen2]
          rcases hx : parsePairs ftStr i r.scale r.height 0 r.path with e2 | a
          · refine ⟨e2, ?_⟩
            simp only [bind, Except.bind]
          · obtain ⟨e, he⟩ := ih (i + 1) ⟨r0, htail, hr0len, hr0bad⟩
            refine ⟨e, ?_⟩
            simp only [bind, Except.bind]
            rw [he]

/-- C2 amended: a path with a malformed (missing or non-numeric) coordinate
makes the whole `calculate_fence_project` call return the structured error
result: the exception raised in `_parse_segments` is only caught by the
outer try/except, so the remaining well-formed paths are not processed and
no report is produced (the batch is aborted, not skip-and-continued). -/
theorem malformed_aborts_batch (raws : List RawSegment) (ftStr : String)
    (h : ∃ r ∈ raws, 2 ≤ r.path.length ∧ ∃ p ∈ r.path, p.x = none ∨ p.y = none) :
    ∃ e, calculateFenceProject raws ftStr = CalcResult.error e := by
  obtain ⟨e, he⟩ := parseSegmentsAux_malformed ftStr raws 0 h
  refine ⟨e, ?_⟩
  unfold calculateFenceProject calcProject parseSegments
  rw [he]
  rfl

/-- Demo batch: first path has a missing x coordinate, second is fine. -/
def demoBadRaws : List RawSegment :=
  [⟨[⟨some 0, some 0⟩, ⟨none, some 5⟩], 1, 6⟩,
   ⟨[⟨some 0, some 0⟩, ⟨some 20, some 0⟩], 1, 6⟩]

/-- C2 counterexample: with one malformed path and one well-formed path the
engine does not skip the offending path and continue — the whole call
returns the error result, no report. -/
theorem malformed_counterexample :
    calculateFenceProject demoBadRaws "vinyl-privacy" =
      CalcResult.error "missing or non-numeric coordinate" := by
  unfold calculateFenceProject calcProject parseSegments
  rw [show parseSegmentsAux "vinyl-privacy" 0 demoBadRaws =
      Except.error "missing or non-numeric coordinate" by
    simp [demoBadRaws, parseSegmentsAux, parsePairs, bind, Except.bind, throw,
      throwThe, MonadExceptOf.throw]]
  rfl

theorem malformed_aborts_batch_witness :
    (∃ r ∈ demoBadRaws, 2 ≤ r.path.length ∧ ∃ p ∈ r.path, p.x = none ∨ p.y = none) ∧
    (∃ e, calculateFenceProject demoBadRaws "vinyl-privacy" = CalcResult.error e) := by
  have hh : ∃ r ∈ demoBadRaws, 2 ≤ r.path.length ∧ ∃ p ∈ r.path, p.x = none ∨ p.y = none :=
    ⟨⟨[⟨some 0, some 0⟩, ⟨none, some 5⟩], 1, 6⟩, List.mem_cons_self _ _,
      by norm_num,
      ⟨⟨none, some 5⟩, List.mem_cons_of_mem _ (List.mem_cons_self _ _), Or.inl rfl⟩⟩
  exact ⟨hh, malformed_aborts_batch demoBadRaws "vinyl-privacy" hh⟩

/-- Three 8 ft segments forming a 24 ft straight run, constructed with
`is_gate = false` (the "no gates" reading of Scenario A). -/
def straight24 : List FenceSegment :=
  [⟨"A", ⟨0, 0⟩, ⟨8, 0⟩, FenceType.vinyl_privacy, 6, false, none⟩,
   ⟨"B", ⟨8, 0⟩, ⟨16, 0⟩, FenceType.vinyl_privacy, 6, false, none⟩,
   ⟨"C", ⟨16, 0⟩, ⟨24, 0⟩, FenceType.vinyl_privacy, 6, false, none⟩]

lemma straight24_total_length : totalLength straight24 = 24 := by
  simp only [totalLength, straight24, FenceSegment.length, List.map_cons,
    List.map_nil, List.sum_cons, List.sum_nil]
  rw [Point.dist_horiz, Point.dist_horiz, Point.dist_horiz]
  norm_num

lemma straight24_non_gate_length : nonGateLength straight24 = 24 := by
  have h : (straight24.filter (fun s => !s.is_gate)) = straight24 := rfl
  rw [nonGateLength, h]
  exact straight24_total_length

lemma straight24_panels :
    panelsNeeded straight24 (materialSpecs FenceType.vinyl_privacy) = 3 := by
  have hgw : gateWidthSum straight24 = 0 := rfl
  rw [panelsNeeded, straight24_total_length, hgw]
  rw [show (materialSpecs FenceType.vinyl_privacy).panel_width = 8 from rfl]
  apply ceil_evalR
  · norm_num
  · norm_num

lemma straight24_points :
    buildPoints straight24 = [⟨0, 0⟩, ⟨8, 0⟩, ⟨16, 0⟩, ⟨24, 0⟩] := by
  simp only [buildPoints, List.foldl_cons, List.foldl_nil, straight24]
  norm_num [addPoint, findPointIdx, List.findIdx?, Point.dist2]

lemma straight24_posts :
    calculatePostsForGroup straight24 (materialSpecs FenceType.vinyl_privacy) = 3 := by
  have ha0 : pointAdj straight24 [⟨0, 0⟩, ⟨8, 0⟩, ⟨16, 0⟩, ⟨24, 0⟩] 0 = [1] := by
    simp only [pointAdj, segmentContrib, List.flatMap, straight24]
    norm_num [findPointIdx, List.findIdx?, Point.dist2]
  have ha1 : pointAdj straight24 [⟨0, 0⟩, ⟨8, 0⟩, ⟨16, 0⟩, ⟨24, 0⟩] 1 = [0, 2] := by
    simp only [pointAdj, segmentContrib, List.flatMap, straight24]
    norm_num [findPointIdx, List.findIdx?, Point.dist2]
  have ha2 : pointAdj straight24 [⟨0, 0⟩, ⟨8, 0⟩, ⟨16, 0⟩, ⟨24, 0⟩] 2 = [1, 3] := by
    simp only [pointAdj, segmentContrib, List.flatMap, straight24]
    norm_num [findPointIdx, List.findIdx?, Point.dist2]
  have ha3 : pointAdj straight24 [⟨0, 0⟩, ⟨8, 0⟩, ⟨16, 0⟩, ⟨24, 0⟩] 3 = [2] := by
    simp only [pointAdj, segmentContrib, List.flatMap, straight24]
    norm_num [findPointIdx, List.findIdx?, Point.dist2]
  have hd0 : pointDegree straight24 [⟨0, 0⟩, ⟨8, 0⟩, ⟨16, 0⟩, ⟨24, 0⟩] 0 = 1 := by
    rw [pointDegree, ha0]; rfl
  have hd1 : pointDegree straight24 [⟨0, 0⟩, ⟨8, 0⟩, ⟨16, 0⟩, ⟨24, 0⟩] 1 = 2 := by
    rw [pointDegree, ha1]; rfl
  have hd2 : pointDegree straight24 [⟨0, 0⟩, ⟨8, 0⟩, ⟨16, 0⟩, ⟨24, 0⟩] 2 = 2 := by
    rw [pointDegree, ha2]; rfl
  have hd3 : pointDegree straight24 [⟨0, 0⟩, ⟨8, 0⟩, ⟨16, 0⟩, ⟨24, 0⟩] 3 = 1 := by
    rw [pointDegree, ha3]; rfl
  rw [calculatePostsForGroup]
  rw [if_neg (by simp [straight24])]
  rw [straight24_points, straight24_non_gate_length]
  simp only [endCornerCounts, List.length_cons, List.length_nil]
  rw [show List.range 4 = [0, 1, 2, 3] from rfl]
  simp only [List.foldl_cons, List.foldl_nil, hd0, hd1, hd2, hd3]
  rw [show (materialSpecs FenceType.vinyl_privacy).post_spacing = 8 from rfl]
  rw [show ((24 : ℝ) / (8 : ℚ)) = 3 by norm_num]
  rw [show ⌈(3 : ℝ)⌉ = 3 from by norm_num]
  norm_num

/-- Raw input: one 4-point path drawing the same 24 ft straight run. -/
def demo24Raws : List RawSegment :=
  [⟨[⟨some 0, some 0⟩, ⟨some 8, some 0⟩, ⟨some 16, some 0⟩, ⟨some 24, some 0⟩], 1, 6⟩]

/-- First parsed piece of the 24 ft path (8 ft, hence a gate). -/
noncomputable def seg24a : FenceSegment :=
  ⟨segId 0 0, ⟨0, 0⟩, ⟨8, 0⟩, FenceType.vinyl_privacy, 6, true, some 8⟩

/-- Second parsed piece of the 24 ft path. -/
noncomputable def seg24b : FenceSegment :=
  ⟨segId 0 1, ⟨8, 0⟩, ⟨16, 0⟩, FenceType.vinyl_privacy, 6, true, some 8⟩

/-- Third parsed piece of the 24 ft path. -/
noncomputable def seg24c : FenceSegment :=
  ⟨segId 0 2, ⟨16, 0⟩, ⟨24, 0⟩, FenceType.vinyl_privacy, 6, true, some 8⟩

lemma demo24_parse :
    parseSegments demo24Raws "vinyl-privacy" = Except.ok [seg24a, seg24b, seg24c] := by
  have h1 : Point.dist ⟨0, 0⟩ ⟨8, 0⟩ = (8 : ℝ) := by
    rw [Point.dist_horiz]; norm_num
  have h2 : Point.dist ⟨8, 0⟩ ⟨16, 0⟩ = (8 : ℝ) := by
    rw [Point.dist_horiz]; norm_num
  have h3 : Point.dist ⟨16, 0⟩ ⟨24, 0⟩ = (8 : ℝ) := by
    rw [Point.dist_horiz]; norm_num
  simp only [demo24Raws, parseSegments, parseSegmentsAux, parsePairs,
    FenceType.ofString, seg24a, seg24b, seg24c, Point.dist2]
  norm_num [h1, h2, h3, segId, Except.map, Except.pure, Except.bind,
    bind, pure, Functor.map, Point.dist2]

/-- C3 counterexample: the canonical three-segment 24 ft straight run with
no gates and the vinyl-privacy spec yields `panels_needed = 3` and
`gates_needed = 0` as claimed, but `posts_needed = 3` (two end posts plus
a single line post, because `theoretical_posts = ceil(24/8) = 3`), not 4. -/
theorem straight_run_counterexample :
    panelsNeeded straight24 (materialSpecs FenceType.vinyl_privacy) = 3 ∧
    gatesNeeded straight24 = 0 ∧
    calculatePostsForGroup straight24 (materialSpecs FenceType.vinyl_privacy) = 3 ∧
    calculatePostsForGroup straight24 (materialSpecs FenceType.vinyl_privacy) ≠ 4 := by
  refine ⟨straight24_panels, rfl, straight24_posts, ?_⟩
  rw [straight24_posts]
  norm_num

/-- C3 amended: for the three-segment 24 ft straight run taken as a group
with `is_gate = false` (the reading that makes "no gates" possible),
`panels_needed = ceil(24/8) = 3` and `gates_needed = 0`, but
`posts_needed = 3` (2 end posts + 1 line post, since `theoretical_posts =
ceil(24/8) = 3`), not 4; and feeding the same 24 ft run through the
parser instead turns every 8 ft piece into a gate (8 < 10), so the
claimed `gates_needed == 0` cannot arise from parsed input. -/
theorem straight_run_amended :
    panelsNeeded straight24 (materialSpecs FenceType.vinyl_privacy) = 3 ∧
    gatesNeeded straight24 = 0 ∧
    calculatePostsForGroup straight24 (materialSpecs FenceType.vinyl_privacy) = 3 ∧
    parseSegments demo24Raws "vinyl-privacy" = Except.ok [seg24a, seg24b, seg24c] ∧
    seg24a.is_gate = true ∧ seg24b.is_gate = true ∧ seg24c.is_gate = true :=
  ⟨straight24_panels, rfl, straight24_posts, demo24_parse, rfl, rfl, rfl⟩

lemma segmentsConnected_symm (s1 s2 : FenceSegment) :
    segmentsConnected s1 s2 = segmentsConnected s2 s1 := by
  unfold segmentsConnected
  rw [Point.dist2_comm s1.start s2.start, Point.dist2_comm s1.start s2.stop,
    Point.dist2_comm s1.stop s2.start, Point.dist2_comm s1.stop s2.stop]
  have hswap : ∀ a b c d : Bool, (a || b || c || d) = (a || c || b || d) := by decide
  exact hswap _ _ _ _

lemma connectionsOf_mem (segs : List FenceSegment) (i j : Fin segs.length) :
    j ∈ connectionsOf segs i ↔
      i ≠ j ∧ segmentsConnected (segs.get i) (segs.get j) = true := by
  unfold connectionsOf
  rw [List.mem_filter]
  simp [List.mem_finRange, bne_iff_ne]

lemma connectionsOf_symm (segs : List FenceSegment) (i j : Fin segs.length)
    (h : j ∈ connectionsOf segs i) : i ∈ connectionsOf segs j := by
  rw [connectionsOf_mem] at h ⊢
  exact ⟨h.1.symm, by rw [segmentsConnected_symm]; exact h.2⟩

lemma dfsLoop_vis_mono {n : ℕ} (adj : Fin n → List (Fin n)) :
    ∀ (stack : List (Fin n)) (vis : Finset (Fin n)) (grp : List (Fin n)),
      vis ⊆ (dfsLoop adj stack vis grp).1 := by
  intro stack vis grp
  induction stack, vis, grp using dfsLoop.induct adj with
  | case1 vis grp =>
      rw [dfsLoop]
  | case2 v stack vis grp hv ih =>
      rw [dfsLoop, if_pos hv]
      exact ih
  | case3 v stack vis grp hv ih =>
      rw [dfsLoop, if_neg hv]
      exact (Finset.subset_insert v vis).trans ih

lemma dfsLoop_stack_mem {n : ℕ} (adj : Fin n → List (Fin n)) :
    ∀ (stack : List (Fin n)) (vis : Finset (Fin n)) (grp : List (Fin n)),
      ∀ x ∈ stack, x ∈ (dfsLoop adj stack vis grp).1 := by
  intro stack vis grp
  induction stack, vis, grp using dfsLoop.induct adj with
  | case1 vis grp =>
      intro x hx
      simp at hx
  | case2 v stack vis grp hv ih =>
      intro x hx
      rw [dfsLoop, if_pos hv]
      rcases List.mem_cons.mp hx with rfl | hx2
      · exact dfsLoop_vis_mono adj stack vis grp hv
      · exact ih x hx2
  | case3 v stack vis grp hv ih =>
      intro x hx
      rw [dfsLoop, if_neg hv]
      rcases List.mem_cons.mp hx with rfl | hx2
      · exact dfsLoop_vis_mono adj _ _ _ (Finset.mem_insert_self x vis)
      · exact ih x (List.mem_append_right _ hx2)

lemma dfsLoop_group {n : ℕ} (adj : Fin n → List (Fin n)) :
    ∀ (stack : List (Fin n)) (vis : Finset (Fin n)) (grp : List (Fin n)),
      ∃ t, (dfsLoop adj stack vis grp).2 = grp ++ t ∧ t.Nodup ∧
        (∀ x, x ∈ t ↔ x ∈ (dfsLoop adj stack vis grp).1 ∧ x ∉ vis) := by
  intro stack vis grp
  induction stack, vis, grp using dfsLoop.induct adj with
  | case1 vis grp =>
      rw [dfsLoop]
      exact ⟨[], by simp⟩
  | case2 v stack vis grp hv ih =>
      rw [dfsLoop, if_pos hv]
      exact ih
  | case3 v stack vis grp hv ih =>
      rw [dfsLoop, if_neg hv]
      obtain ⟨t, ht, htn, htm⟩ := ih
      refine ⟨v :: t, ?_, ?_, ?_⟩
      · rw [ht]
        simp
      · refine List.Nodup.cons ?_ htn
        intro hvt
        exact ((htm v).mp hvt).2 (Finset.mem_insert_self v vis)
      · intro x
        rcases eq_or_ne x v with rfl | hxv
        · simp only [List.mem_cons, true_or, true_iff]
          exact ⟨dfsLoop_vis_mono adj _ _ _ (Finset.mem_insert_self x vis), hv⟩
        · simp only [List.mem_cons]
          rw [htm x]
          constructor
          · rintro (rfl | ⟨hx1, hx2⟩)
            · exact absurd rfl hxv
            · exact ⟨hx1, fun hx3 => hx2 (Finset.mem_insert_of_mem hx3)⟩
          · rintro ⟨hx1, hx2⟩
            right
            refine ⟨hx1, fun hx3 => ?_⟩
            rcases Finset.mem_insert.mp hx3 with rfl | hx4
            · exact hxv rfl
            · exact hx2 hx4

lemma dfsLoop_sound {n : ℕ} (adj : Fin n → List (Fin n)) :
    ∀ (stack : List (Fin n)) (vis : Finset (Fin n)) (grp : List (Fin n)),
      ∀ x ∈ (dfsLoop adj stack vis grp).1, x ∈ vis ∨
        ∃ s0 ∈ stack, Relation.ReflTransGen (fun a b => b ∈ adj a) s0 x := by
  intro stack vis grp
  induction stack, vis, grp using dfsLoop.induct adj with
  | case1 vis grp =>
      intro x hx
      rw [dfsLoop] at hx
      exact Or.inl hx
  | case2 v stack vis grp hv ih =>
      intro x hx
      rw [dfsLoop, if_pos hv] at hx
      rcases ih x hx with h | ⟨s0, hs0, hr⟩
      · exact Or.inl h
      · exact Or.inr ⟨s0, List.mem_cons_of_mem _ hs0, hr⟩
  | case3 v stack vis grp hv ih =>
      intro x hx
      rw [dfsLoop, if_neg hv] at hx
      rcases ih x hx with h | ⟨s0, hs0, hr⟩
      · rcases Finset.mem_insert.mp h with rfl | h2
        · exact Or.inr ⟨x, List.mem_cons_self _ _, Relation.ReflTransGen.refl⟩
        · exact Or.inl h2
      · rcases List.mem_append.mp hs0 with hadj | hstk
        · exact Or.inr ⟨v, List.mem_cons_self _ _, Relation.ReflTransGen.head hadj hr⟩
        · exact Or.inr ⟨s0, List.mem_cons_of_mem _ hstk, hr⟩

lemma dfsLoop_closed {n : ℕ} (adj : Fin n → List (Fin n)) :
    ∀ (stack : List (Fin n)) (vis : Finset (Fin n)) (grp : List (Fin n)),
      (∀ x ∈ vis, ∀ y ∈ adj x, y ∈ vis ∨ y ∈ stack) →
      ∀ x ∈ (dfsLoop adj stack vis grp).1, ∀ y ∈ adj x,
        y ∈ (dfsLoop adj stack vis grp).1 := by
  intro stack vis grp
  induction stack, vis, grp using dfsLoop.induct adj with
  | case1 vis grp =>
      intro hpre x hx y hy
      rw [dfsLoop] at hx ⊢
      rcases hpre x hx y hy with h | h
      · exact h
      · simp at h
  | case2 v stack vis grp hv ih =>
      intro hpre x hx y hy
      rw [dfsLoop, if_pos hv] at hx ⊢
      refine ih ?_ x hx y hy
      intro a ha b hb
      rcases hpre a ha b hb with h | h
      · exact Or.inl h
      · rcases List.mem_cons.mp h with rfl | h2
        · exact Or.inl hv
        · exact Or.inr h2
  | case3 v stack vis grp hv ih =>
      intro hpre x hx y hy
      rw [dfsLoop, if_neg hv] at hx ⊢
      refine ih ?_ x hx y hy
      intro a ha b hb
      rcases Finset.mem_insert.mp ha with rfl | ha2
      · exact Or.inr (List.mem_append_left _ hb)
      · rcases hpre a ha2 b hb with h | h
        · exact Or.inl (Finset.mem_insert_of_mem h)
        · rcases List.mem_cons.mp h with rfl | h2
          · exact Or.inl (Finset.mem_insert_self b vis)
          · exact Or.inr (List.mem_append_right _ h2)

lemma reach_in_closed {n : ℕ} (adj : Fin n → List (Fin n)) (S : Finset (Fin n))
    (hS : ∀ x ∈ S, ∀ y ∈ adj x, y ∈ S) {a b : Fin n}
    (h : Relation.ReflTransGen (fun a b => b ∈ adj a) a b) (ha : a ∈ S) : b ∈ S := by
  induction h with
  | refl => exact ha
  | tail h1 h2 ih => exact hS _ ih _ h2

lemma reach_symm {n : ℕ} (adj : Fin n → List (Fin n))
    (hsym : ∀ i j, j ∈ adj i → i ∈ adj j) {a b : Fin n}
    (h : Relation.ReflTransGen (fun a b => b ∈ adj a) a b) :
    Relation.ReflTransGen (fun a b => b ∈ adj a) b a := by
  induction h with
  | refl => exact Relation.ReflTransGen.refl
  | tail h1 h2 ih => exact Relation.ReflTransGen.head (hsym _ _ h2) ih

/-- One DFS launch from a fresh seed over a closed visited set collects
exactly the seed's connected component. -/
lemma dfs_component {n : ℕ} (adj : Fin n → List (Fin n))
    (hsym : ∀ i j, j ∈ adj i → i ∈ adj j)
    (vis : Finset (Fin n)) (hclosed : ∀ x ∈ vis, ∀ y ∈ adj x, y ∈ vis)
    (seed : Fin n) (hseed : seed ∉ vis) :
    (∀ x, x ∈ (dfsLoop adj [seed] vis []).2 ↔
      Relation.ReflTransGen (fun a b => b ∈ adj a) seed x) ∧
    (dfsLoop adj [seed] vis []).2.Nodup ∧
    (∀ x, x ∈ (dfsLoop adj [seed] vis []).1 ↔
      x ∈ vis ∨ Relation.ReflTransGen (fun a b => b ∈ adj a) seed x) ∧
    (∀ x ∈ (dfsLoop adj [seed] vis []).1, ∀ y ∈ adj x,
      y ∈ (dfsLoop adj [seed] vis []).1) := by
  have hres_closed : ∀ x ∈ (dfsLoop adj [seed] vis []).1, ∀ y ∈ adj x,
      y ∈ (dfsLoop adj [seed] vis []).1 := by
    refine dfsLoop_closed adj [seed] vis [] ?_
    intro x hx y hy
    exact Or.inl (hclosed x hx y hy)
  have hseedin : seed ∈ (dfsLoop adj [seed] vis []).1 :=
    dfsLoop_stack_mem adj [seed] vis [] seed (List.mem_cons_self _ _)
  have hvis1 : ∀ x, x ∈ (dfsLoop adj [seed] vis []).1 ↔
      x ∈ vis ∨ Relation.ReflTransGen (fun a b => b ∈ adj a) seed x := by
    intro x
    constructor
    · intro hx
      rcases dfsLoop_sound adj [seed] vis [] x hx with h | ⟨s0, hs0, hr⟩
      · exact Or.inl h
      · have : s0 = seed := by simpa using hs0
        subst this
        exact Or.inr hr
    · rintro (h | h)
      · exact dfsLoop_vis_mono adj [seed] vis [] h
      · exact reach_in_closed adj _ hres_closed h hseedin
  have hdisj : ∀ x, Relation.ReflTransGen (fun a b => b ∈ adj a) seed x → x ∉ vis := by
    intro x hr hx
    exact hseed (reach_in_closed adj vis hclosed (reach_symm adj hsym hr) hx)
  obtain ⟨t, ht, htn, htm⟩ := dfsLoop_group adj [seed] vis []
  have ht2 : (dfsLoop adj [seed] vis []).2 = t := by simpa using ht
  refine ⟨?_, ?_, hvis1, hres_closed⟩
  · intro x
    rw [ht2, htm x, hvis1 x]
    constructor
    · rintro ⟨h1 | h1, h2⟩
      · exact absurd h1 h2
      · exact h1
    · intro h
      exact ⟨Or.inr h, hdisj x h⟩
  · rw [ht2]
    exact htn

/-- The body of the seed loop of `analyze_connectivity`. -/
def groupStep (segs : List FenceSegment) :
    Finset (Fin segs.length) × List (List (Fin segs.length)) → Fin segs.length →
    Finset (Fin segs.length) × List (List (Fin segs.length)) := fun st i =>
  if i ∈ st.1 then st
  else
    let r := dfsLoop (connectionsOf segs) [i] st.1 []
    (r.1, st.2 ++ [r.2])

lemma connectivityGroupsIdx_eq (segs : List FenceSegment) :
    connectivityGroupsIdx segs =
      ((List.finRange segs.length).foldl (groupStep segs) (∅, [])).2 := rfl

lemma groupFold_inv (segs : List FenceSegment) :
    ∀ (l : List (Fin segs.length))
      (st : Finset (Fin segs.length) × List (List (Fin segs.length))),
      (∀ x ∈ st.1, ∀ y ∈ connectionsOf segs x, y ∈ st.1) →
      st.2.flatten.Nodup →
      (∀ x, x ∈ st.2.flatten ↔ x ∈ st.1) →
      (∀ g ∈ st.2, g.Nodup ∧ ∃ seed, ∀ x, x ∈ g ↔
        Relation.ReflTransGen (fun a b => b ∈ connectionsOf segs a) seed x) →
      (∀ x ∈ (l.foldl (groupStep segs) st).1, ∀ y ∈ connectionsOf segs x,
        y ∈ (l.foldl (groupStep segs) st).1) ∧
      (l.foldl (groupStep segs) st).2.flatten.Nodup ∧
      (∀ x, x ∈ (l.foldl (groupStep segs) st).2.flatten ↔
        x ∈ (l.foldl (groupStep segs) st).1) ∧
      (∀ g ∈ (l.foldl (groupStep segs) st).2, g.Nodup ∧ ∃ seed, ∀ x, x ∈ g ↔
        Relation.ReflTransGen (fun a b => b ∈ connectionsOf segs a) seed x) ∧
      (∀ i ∈ l, i ∈ (l.foldl (groupStep segs) st).1) ∧
      st.1 ⊆ (l.foldl (groupStep segs) st).1 := by
  intro l
  induction l with
  | nil =>
      intro st h1 h2 h3 h4
      exact ⟨h1, h2, h3, h4, by simp, Finset.Subset.refl _⟩
  | cons i t ih =>
      intro st h1 h2 h3 h4
      simp only [List.foldl_cons]
      by_cases hi : i ∈ st.1
      · rw [show groupStep segs st i = st from by rw [groupStep, if_pos hi]]
        obtain ⟨k1, k2, k3, k4, k5, k6⟩ := ih st h1 h2 h3 h4
        exact ⟨k1, k2, k3, k4, fun j hj => by
          rcases List.mem_cons.mp hj with rfl | hj2
          · exact k6 hi
          · exact k5 j hj2, k6⟩
      · have hstep : groupStep segs st i =
            ((dfsLoop (connectionsOf segs) [i] st.1 []).1,
             st.2 ++ [(dfsLoop (connectionsOf segs) [i] st.1 []).2]) := by
          rw [groupStep, if_neg hi]
        obtain ⟨hc1, hc2, hc3, hc4⟩ :=
          dfs_component (connectionsOf segs) (connectionsOf_symm segs) st.1 h1 i hi
        have hdisj : ∀ x ∈ (dfsLoop (connectionsOf segs) [i] st.1 []).2, x ∉ st.1 := by
          intro x hx hx1
          have hr := (hc1 x).mp hx
          have := reach_in_closed (connectionsOf segs) st.1 h1
            (reach_symm (connectionsOf segs) (connectionsOf_symm segs) hr) hx1
          exact hi this
        have h1' : ∀ x ∈ (groupStep segs st i).1, ∀ y ∈ connectionsOf segs x,
            y ∈ (groupStep segs st i).1 := by
          rw [hstep]
          exact hc4
        have h2' : (groupStep segs st i).2.flatten.Nodup := by
          rw [hstep]
          simp only [List.flatten_append, List.flatten_cons, List.flatten_nil,
            List.append_nil]
          rw [List.nodup_append]
          refine ⟨h2, hc2, ?_⟩
          intro a ha hb
          exact hdisj a hb ((h3 a).mp ha)
        have h3' : ∀ x, x ∈ (groupStep segs st i).2.flatten ↔
            x ∈ (groupStep segs st i).1 := by
          rw [hstep]
          intro x
          simp only [List.flatten_append, List.flatten_cons, List.flatten_nil,
            List.append_nil, List.mem_append]
          rw [h3 x, hc1 x, hc3 x]
        have h4' : ∀ g ∈ (groupStep segs st i).2, g.Nodup ∧ ∃ seed, ∀ x, x ∈ g ↔
            Relation.ReflTransGen (fun a b => b ∈ connectionsOf segs a) seed x := by
          rw [hstep]
          intro g hg
          rcases List.mem_append.mp hg with hg1 | hg2
          · exact h4 g hg1
          · have : g = (dfsLoop (connectionsOf segs) [i] st.1 []).2 := by
              simpa using hg2
            subst this
            exact ⟨hc2, i, hc1⟩
        obtain ⟨k1, k2, k3, k4, k5, k6⟩ := ih (groupStep segs st i) h1' h2' h3' h4'
        refine ⟨k1, k2, k3, k4, ?_, ?_⟩
        · intro j hj
          rcases List.mem_cons.mp hj with rfl | hj2
          · refine k6 ?_
            rw [hstep]
            exact (hc3 j).mpr (Or.inr Relation.ReflTransGen.refl)
          · exact k5 j hj2
        · refine Finset.Subset.trans ?_ k6
          rw [hstep]
          intro x hx
          exact (hc3 x).mpr (Or.inl hx)

/-- Chains of raw endpoint-proximity links coincide with chains over the
DFS adjacency lists (a self-proximity step adds nothing). -/
lemma chain_equiv (segs : List FenceSegment) (i j : Fin segs.length) :
    Relation.ReflTransGen
      (fun a b => segmentsConnected (segs.get a) (segs.get b) = true) i j ↔
    Relation.ReflTransGen (fun a b => b ∈ connectionsOf segs a) i j := by
  constructor
  · intro h
    induction h with
    | refl => exact Relation.ReflTransGen.refl
    | tail h1 h2 ih =>
        rename_i b c
        rcases eq_or_ne b c with rfl | hbc
        · exact ih
        · exact Relation.ReflTransGen.tail ih ((connectionsOf_mem segs b c).mpr ⟨hbc, h2⟩)
  · intro h
    refine Relation.ReflTransGen.mono ?_ h
    intro a b hab
    exact ((connectionsOf_mem segs a b).mp hab).2

lemma nodup_singleton_of_mem_iff {α : Type} {g : List α} {i : α}
    (hnd : g.Nodup) (hch : ∀ x, x ∈ g ↔ x = i) : g = [i] := by
  cases g with
  | nil =>
      exact absurd ((hch i).mpr rfl) (List.not_mem_nil i)
  | cons a t =>
      have ha : a = i := (hch a).mp (List.mem_cons_self _ _)
      subst ha
      cases t with
      | nil => rfl
      | cons b u =>
          have hb : b = a := (hch b).mp (List.mem_cons_of_mem _ (List.mem_cons_self _ _))
          subst hb
          simp at hnd

/-- C7: the groups produced by `analyze_connectivity` partition the input
segments (each index appears in exactly one group, exactly once), two
segments share a group exactly when a chain of pairwise endpoint-proximity
connections (within 0.5 ft) links them, and a segment with no neighbors
forms a singleton group. -/
theorem connectivity_partition (segs : List FenceSegment) :
    (analyzeConnectivity segs =
      (connectivityGroupsIdx segs).map (fun g => g.map (fun i => segs.get i))) ∧
    (connectivityGroupsIdx segs).flatten.Perm (List.finRange segs.length) ∧
    (∀ i j : Fin segs.length,
      (∃ g ∈ connectivityGroupsIdx segs, i ∈ g ∧ j ∈ g) ↔
        Relation.ReflTransGen
          (fun a b => segmentsConnected (segs.get a) (segs.get b) = true) i j) ∧
    (∀ i : Fin segs.length,
      (∀ j, j ≠ i → segmentsConnected (segs.get i) (segs.get j) = false) →
        [i] ∈ connectivityGroupsIdx segs) := by
  obtain ⟨hc, hnd, hmem, hgr, hcov, -⟩ :=
    groupFold_inv segs (List.finRange segs.length) (∅, [])
      (by simp) (by simp) (by simp) (by simp)
  rw [connectivityGroupsIdx_eq]
  refine ⟨rfl, ?_, ?_, ?_⟩
  · refine (List.perm_ext_iff_of_nodup hnd (List.nodup_finRange _)).mpr ?_
    intro a
    rw [hmem a]
    simp only [List.mem_finRange, iff_true]
    exact hcov a (List.mem_finRange a)
  · intro i j
    rw [chain_equiv]
    constructor
    · rintro ⟨g, hgm, hig, hjg⟩
      obtain ⟨-, seed, hch⟩ := hgr g hgm
      have hsi := (hch i).mp hig
      have hsj := (hch j).mp hjg
      exact Relation.ReflTransGen.trans
        (reach_symm (connectionsOf segs) (connectionsOf_symm segs) hsi) hsj
    · intro h
      have hi1 : i ∈ ((List.finRange segs.length).foldl (groupStep segs) (∅, [])).1 :=
        hcov i (List.mem_finRange i)
      obtain ⟨g, hgm, hig⟩ := List.mem_flatten.mp ((hmem i).mpr hi1)
      obtain ⟨-, seed, hch⟩ := hgr g hgm
      have hsi := (hch i).mp hig
      exact ⟨g, hgm, hig, (hch j).mpr (Relation.ReflTransGen.trans hsi h)⟩
  · intro i hiso
    have hadj : connectionsOf segs i = [] := by
      rw [connectionsOf, List.filter_eq_nil_iff]
      intro j hj
      rcases eq_or_ne i j with rfl | hij
      · simp
      · simp only [Bool.and_eq_true, bne_iff_ne, ne_eq, not_and]
        intro h
        rw [hiso j (Ne.symm hij)]
        simp
    have hreach_eq : ∀ x, Relation.ReflTransGen
        (fun a b => b ∈ connectionsOf segs a) i x → x = i := by
      intro x hx
      rcases (Relation.ReflTransGen.cases_head hx) with rfl | ⟨c, hstep, -⟩
      · rfl
      · rw [hadj] at hstep
        exact absurd hstep (List.not_mem_nil c)
    have hi1 : i ∈ ((List.finRange segs.length).foldl (groupStep segs) (∅, [])).1 :=
      hcov i (List.mem_finRange i)
    obtain ⟨g, hgm, hig⟩ := List.mem_flatten.mp ((hmem i).mpr hi1)
    obtain ⟨hgnd, seed, hch⟩ := hgr g hgm
    have hseedi : seed = i :=
      hreach_eq seed (reach_symm (connectionsOf segs) (connectionsOf_symm segs)
        ((hch i).mp hig))
    subst hseedi
    have hch2 : ∀ x, x ∈ g ↔ x = seed := fun x =>
      ⟨fun hx => hreach_eq x ((hch x).mp hx),
       fun hx => (hch x).mpr (hx ▸ Relation.ReflTransGen.refl)⟩
    exact (nodup_singleton_of_mem_iff hgnd hch2) ▸ hgm

theorem connectivity_partition_witness :
    [(⟨0, by norm_num⟩ : Fin ([demoSeg6] : List FenceSegment).length)] ∈
      connectivityGroupsIdx [demoSeg6] := by
  refine (connectivity_partition [demoSeg6]).2.2.2 ⟨0, by norm_num⟩ ?_
  intro j hj
  exfalso
  apply hj
  apply Fin.ext
  show (j : ℕ) = 0
  have h2 : (j : ℕ) < 1 := j.isLt
  omega
